import Mathlib

/-!
Shallow embedding of the BibleRAGApp repository (TypeScript / Next.js) in Lean 4.

The repository is a set of Next.js API route handlers that orchestrate calls to
two external services (an OpenAI LLM / embedding endpoint and a Pinecone vector
database).  We embed the request handlers as pure functions from an explicit
environment -- which supplies the outcome (success value or thrown error) of
every external call -- to the HTTP response the handler produces, together with
a trace of the external calls it made.  JavaScript exceptions are modelled with
`Except`, JavaScript `undefined`/`null` with `Option`, and JavaScript numbers
appearing in the modelled code (chapter/verse numbers, topK counts) with `Int`.

Source files embedded here:
  src/libs/pinecone.ts, src/libs/verseAnalysis.ts, src/libs/openai.ts,
  src/app/api/search/route.ts, src/app/api/search-rerank/route.ts,
  the analyze-verse route, the analyze-verse-stream route, the parse-query
  (parse-intent) route, and the batch upload scripts (src/scripts/embed.ts and
  the original-language loading script).
-/

/-- Opaque-to-the-model error value standing for a thrown JavaScript exception. -/
inductive JsErr : Type
  | exn (tag : String)
deriving DecidableEq, Repr

/-- ASCII whitespace test used to model the `\s` character class of the
JavaScript regexes and `String.prototype.trim` on realistic inputs. -/
def jsIsSpace (c : Char) : Bool :=
  c = ' ' || c = '\t' || c = '\n' || c = '\r'

/-- Model of `String.prototype.trim`: strip leading and trailing whitespace. -/
def jsTrim (s : String) : String :=
  String.mk ((s.toList.dropWhile jsIsSpace).reverse.dropWhile jsIsSpace).reverse

/-- Model of `String.prototype.toUpperCase` (ASCII range, which covers all
strings the code applies it to). -/
def toUpperString (s : String) : String :=
  String.mk (s.toList.map Char.toUpper)

/-- Model of `String.prototype.toLowerCase` (ASCII range, which covers all
strings the code applies it to). -/
def toLowerString (s : String) : String :=
  String.mk (s.toList.map Char.toLower)

/-- Character-list worker for `replace(/\s+/g, "-")`: collapse each maximal
whitespace run into a single dash.  The boolean flag records whether the
previous character was part of a whitespace run already replaced. -/
def replaceSpacesChars : Bool → List Char → List Char
  | _, [] => []
  | inRun, c :: cs =>
    if jsIsSpace c then
      if inRun then replaceSpacesChars true cs
      else '-' :: replaceSpacesChars true cs
    else c :: replaceSpacesChars false cs

/-- Model of `s.replace(/\s+/g, "-")` as used when building verse identifiers. -/
def jsReplaceSpaces (s : String) : String :=
  String.mk (replaceSpacesChars false s.toList)

/-- Model of `x || dflt` on an optional JavaScript string: `undefined` and the
empty string are falsy and select the default. -/
def jsOrStr (x : Option String) (dflt : String) : String :=
  match x with
  | none => dflt
  | some s => if s = "" then dflt else s

/-- Whether an optional JavaScript string is falsy (`undefined` or `""`). -/
def jsFalsyStr (x : Option String) : Bool :=
  match x with
  | none => true
  | some s => s = ""

/-- String interpolation `${x}` of an optional number: JavaScript renders
`undefined` as the string "undefined". -/
def optIntStr (x : Option Int) : String :=
  match x with
  | none => "undefined"
  | some n => toString n

/-- Numeric value of a nonempty digit string captured by `(\d+)` in the verse
reference regex, as computed by `parseInt`. -/
def digitsToInt (s : String) : Int :=
  (s.toList.foldl (fun acc c => acc * 10 + (c.toNat - '0'.toNat)) 0 : Nat)

/-! ### Verse identifier constructions (C1)

Four places in the repository build verse identifiers:
  * `src/scripts/embed.ts` (KJV batch upload): `` `${verse.book}-${verse.chapter}-${verse.verse}` ``
  * the original-language batch script: `` `OT-${verse.book.replace(/\s+/g, "-")}-${verse.chapter}-${verse.verse}` ``
    (and the analogous `NT-` form)
  * `src/app/api/search/route.ts` line 226 (exact KJV fetch):
    `` `${normalizedBookName}-${chapterNum}-${verseNum}` ``
  * `src/libs/verseAnalysis.ts` line 76 (exact original-language fetch):
    `` `${testament}-${book.toLowerCase().replace(/\s+/g, '-')}-${chapter}-${verse}` ``
-/

/-- Identifier the KJV batch upload script (src/scripts/embed.ts) stores for a
verse. -/
def kjvUploadId (book : String) (chapter verse : Int) : String :=
  book ++ "-" ++ toString chapter ++ "-" ++ toString verse

/-- Identifier the original-language batch script stores for a verse
(testament is "OT" or "NT"; the book keeps its original capitalisation). -/
def originalUploadId (testament book : String) (chapter verse : Int) : String :=
  testament ++ "-" ++ jsReplaceSpaces book ++ "-" ++ toString chapter ++ "-" ++ toString verse

/-- Identifier the /api/search route builds for its exact KJV fetch
(src/app/api/search/route.ts line 226). -/
def searchFetchId (normalizedBookName : String) (chapterNum verseNum : Int) : String :=
  normalizedBookName ++ "-" ++ toString chapterNum ++ "-" ++ toString verseNum

/-- Identifier `findOriginalLanguageVerse` builds for its exact
original-language fetch (src/libs/verseAnalysis.ts line 76). -/
def originalFetchId (testament book : String) (chapter verse : Int) : String :=
  testament ++ "-" ++ jsReplaceSpaces (toLowerString book) ++ "-" ++
    toString chapter ++ "-" ++ toString verse

/-! ### Testament classification (C9) -/

/-- The fixed list `OLD_TESTAMENT_BOOKS` of src/libs/verseAnalysis.ts
(lines 25-33). -/
def OLD_TESTAMENT_BOOKS : List String :=
  ["genesis", "exodus", "leviticus", "numbers", "deuteronomy",
   "joshua", "judges", "ruth", "1 samuel", "2 samuel", "1 kings", "2 kings",
   "1 chronicles", "2 chronicles", "ezra", "nehemiah", "esther",
   "job", "psalms", "proverbs", "ecclesiastes", "song of solomon",
   "isaiah", "jeremiah", "lamentations", "ezekiel", "daniel",
   "hosea", "joel", "amos", "obadiah", "jonah", "micah",
   "nahum", "habakkuk", "zephaniah", "haggai", "zechariah", "malachi"]

/-- Testament tag, the `'OT' | 'NT'` union type of the TypeScript source. -/
inductive Testament : Type
  | OT
  | NT
deriving DecidableEq, Repr

/-- Model of `determineTestament` (src/libs/verseAnalysis.ts lines 35-37):
a book is OT exactly when its lowercased name occurs in
`OLD_TESTAMENT_BOOKS`. -/
def determineTestament (book : String) : Testament :=
  if toLowerString book ∈ OLD_TESTAMENT_BOOKS then .OT else .NT

/-- Original-language tag chosen by `findOriginalLanguageVerse`
(src/libs/verseAnalysis.ts line 63): Hebrew for OT, Greek otherwise. -/
def originalLanguageFor (book : String) : String :=
  if determineTestament book = .OT then "hebrew" else "greek"

example : determineTestament "Genesis" = .OT := by decide
example : determineTestament "Song of Songs" = .NT := by decide
example : determineTestament "song of solomon" = .OT := by decide
example : originalFetchId "OT" "Genesis" 1 1 = "OT-genesis-1-1" := by decide
example : originalUploadId "OT" "Genesis" 1 1 = "OT-Genesis-1-1" := by decide
example : searchFetchId "John" 3 16 = "John-3-16" := by decide

/-! ### External calls and traces

Every network call a handler performs is recorded in a trace.  Read-only calls
(`RCall`) are the only calls the request handlers make; the batch scripts
additionally perform Pinecone upserts (`ECall.pineUpsert`).  A `TraceNode.par`
node records a `Promise.all` fan-out whose branches ran concurrently. -/

/-- Purpose tag of an LLM chat-completion call (the system prompts are fixed
strings in the source; the tag identifies which prompt was used). -/
inductive LlmTag : Type
  | relevance
  | cleanup
  | preference
  | normalize (book : String)
  | summarize
  | intentParse
  | explainVerses
  | combinedExplain
  | streamAnalysis
deriving DecidableEq, Repr

/-- Read-only external call: LLM chat, embedding creation, vector query,
exact-ID fetch, rerank. -/
inductive RCall : Type
  | llm (tag : LlmTag)
  | embedText (text : String)
  | pineQuery (index : String) (topK : Int)
  | pineFetch (index : String) (id : String)
  | pineRerank (query : String) (topN : Int)
deriving DecidableEq, Repr

/-- Metadata payload of a stored vector record. -/
structure PineMeta : Type where
  text : Option String := none
  abbr : Option String := none
  book : Option String := none
  chapter : Option Int := none
  verse : Option Int := none
  testament : Option String := none
  language : Option String := none
deriving DecidableEq, Repr

/-- A vector record as uploaded by the batch scripts (id, embedding values,
metadata). -/
structure VectorRecord : Type where
  id : String
  values : List Int
  metadata : Option PineMeta := none
deriving DecidableEq, Repr

/-- External call, including the write operation used only by batch scripts. -/
inductive ECall : Type
  | read (c : RCall)
  | pineUpsert (index : String) (records : List VectorRecord)
deriving DecidableEq, Repr

/-- Trace node: a sequentially awaited call, or a `Promise.all` fan-out of
parallel branches (each branch being its own sequential list of read calls). -/
inductive TraceNode : Type
  | seq (c : ECall)
  | par (branches : List (List RCall))
deriving DecidableEq, Repr

/-- Wrap a read call as a sequential trace node. -/
def seqR (c : RCall) : TraceNode :=
  .seq (.read c)

/-- Inject a flat list of sequential read calls into a trace. -/
def mapSeq (l : List RCall) : List TraceNode :=
  l.map seqR

/-- Whether an external call writes to the vector store. -/
def isWriteCall : ECall → Bool
  | .read _ => false
  | .pineUpsert _ _ => true

/-- Whether a trace node contains a write. -/
def nodeHasWrite : TraceNode → Bool
  | .seq c => isWriteCall c
  | .par _ => false

/-- A trace is read-only when none of its nodes writes to the vector store. -/
def traceReadOnly (tr : List TraceNode) : Bool :=
  tr.all (fun n => !nodeHasWrite n)

/-- Whether a trace node is a `Promise.all` fan-out. -/
def isParNode : TraceNode → Bool
  | .par _ => true
  | .seq _ => false

/-- Number of `Promise.all` fan-outs in a trace. -/
def parCount (tr : List TraceNode) : Nat :=
  (tr.filter isParNode).length

/-- The vector store: for each index name, the list of stored records. -/
def Store : Type := String → List VectorRecord

/-- Effect of an upsert on one index: insert each record, replacing any stored
record with the same id. -/
def upsertInto (stored : List VectorRecord) (records : List VectorRecord) : List VectorRecord :=
  records.foldl (fun acc r => acc.filter (fun x => x.id ≠ r.id) ++ [r]) stored

/-- Effect of a single external call on the store: reads leave it unchanged. -/
def applyECall (s : Store) : ECall → Store
  | .read _ => s
  | .pineUpsert index records =>
    fun idx => if idx = index then upsertInto (s index) records else s idx

/-- Effect of a trace node on the store (parallel branches are read-only by
construction). -/
def applyNode (s : Store) : TraceNode → Store
  | .seq c => applyECall s c
  | .par _ => s

/-- Effect of a whole trace on the store. -/
def applyTrace (s : Store) (tr : List TraceNode) : Store :=
  tr.foldl applyNode s

/-! ### The effect monad

A request-handler computation is a value `(result-or-thrown-error, trace of
read calls made)`.  `tryCatchW` models a JavaScript try/catch: calls performed
before the throw stay in the trace. -/

/-- Handler computation: outcome (or thrown error) plus the read calls made. -/
def W (α : Type) : Type := Except JsErr α × List RCall

/-- Sequencing of handler computations (the bind of `W`). -/
def wBind {α β : Type} (x : W α) (f : α → W β) : W β :=
  match x with
  | (.ok a, tr) => match f a with | (r, tr') => (r, tr ++ tr')
  | (.error e, tr) => (.error e, tr)

instance : Monad W where
  pure a := (.ok a, [])
  bind := wBind

/-- Perform an external call whose outcome the environment supplies. -/
def callW {α : Type} (c : RCall) (r : Except JsErr α) : W α := (r, [c])

/-- Model of a JavaScript try/catch around a computation. -/
def tryCatchW {α : Type} (x : W α) (h : JsErr → W α) : W α :=
  match x with
  | (.ok a, tr) => (.ok a, tr)
  | (.error e, tr) => match h e with | (r, tr') => (r, tr ++ tr')

/-- Lift a pure fallible expression (no external call) into the monad. -/
def liftErr {α : Type} (e : Except JsErr α) : W α := (e, [])

/-! ### Environment: outcomes of the external services

Each field supplies the outcome (value or thrown error) of one kind of
external call, keyed by the call's dynamic argument where several calls of the
same kind occur in one request. -/

/-- A row of a Pinecone rerank result (`result.index` and `result.score` are
the only fields the rerank route reads). -/
structure RerankRow : Type where
  index : Nat
  score : Int
deriving DecidableEq, Repr

/-- Result of `pc.inference.rerank`. -/
structure RerankResult : Type where
  data : List RerankRow
deriving DecidableEq, Repr

/-- A scored Pinecone record as returned by `index.query` / built by
`fetchVectorById`. -/
structure PineMatch : Type where
  id : String
  score : Option Int := none
  values : Option (List Int) := none
  metadata : Option PineMeta := none
deriving DecidableEq, Repr

/-- A raw record as returned by `index.fetch`. -/
structure RawFetchRecord : Type where
  id : String
  values : List Int
  metadata : Option PineMeta := none
deriving DecidableEq, Repr

/-- A JavaScript JSON value, as far as the parse-query route inspects the
LLM reply object's fields. -/
inductive JsVal : Type
  | num (n : Int)
  | str (s : String)
  | bool (b : Bool)
  | null
  | arr (l : List JsVal)
deriving Repr

/-- JavaScript truthiness of a JSON value. -/
def jsTruthy : JsVal → Bool
  | .num n => n != 0
  | .str s => s != ""
  | .bool b => b
  | .null => false
  | .arr _ => true

/-- The fields of the parsed intent reply that the parse-query route reads
(each is `undefined` when absent from the parsed object). -/
structure ParsedReply : Type where
  cleanedQuery : Option JsVal := none
  topK : Option JsVal := none
  hasSpecificVerse : Option JsVal := none
  specificVerses : Option JsVal := none

/-- Outcome of `JSON.parse` on the reply followed by field access:
`throwing` covers both a JSON syntax error and a `null` result (whose field
access throws); a successfully parsed object yields its fields.  A parsed
primitive behaves as an object with every field `undefined`. -/
inductive ParseOutcome : Type
  | throwing
  | object (r : ParsedReply)

/-- Outcomes of all external calls a request may perform.  `jsonParse` models
the host runtime's `JSON.parse` applied to the intent reply. -/
structure Env : Type where
  jsonParse : String → ParseOutcome
  relevance : Except JsErr (Option String)
  cleanup : Except JsErr (Option String)
  preference : Except JsErr (Option String)
  normalize : String → Except JsErr (Option String)
  summarize : Except JsErr (Option String)
  intent : Except JsErr (Option String)
  explain : Except JsErr (Option String)
  combined : Except JsErr (Option String)
  streamChunks : Except JsErr (List (Option String))
  embed : String → Except JsErr (List Int)
  queryRaw : String → List Int → Int → Except JsErr (Option (List PineMatch))
  fetchRaw : String → String → Except JsErr (Option RawFetchRecord)
  rerankRaw : String → Int → Except JsErr RerankResult
  upsertRaw : String → List VectorRecord → Except JsErr Unit
  now : String

/-- Environment-variable configuration (index names). -/
structure Config : Type where
  kjvIndex : String
  hebrewIndex : Option String
  greekIndex : Option String

/-! ### src/libs/pinecone.ts -/

/-- Model of `queryVectors` (src/libs/pinecone.ts lines 51-71): query the
index, return `matches ?? []`; a thrown error is logged and rethrown. -/
def queryVectors (env : Env) (indexName : String) (vector : List Int) (topK : Int) :
    W (List PineMatch) :=
  callW (.pineQuery indexName topK) ((env.queryRaw indexName vector topK).map (fun m => m.getD []))

/-- Model of `fetchVectorById` (src/libs/pinecone.ts lines 74-98): fetch one
record by id; found records get `score: 1`; a thrown error is rethrown. -/
def fetchVectorById (env : Env) (indexName : String) (id : String) : W (Option PineMatch) :=
  callW (.pineFetch indexName id)
    ((env.fetchRaw indexName id).map (fun r =>
      r.map (fun rec => { id := rec.id, score := some 1, values := some rec.values,
                          metadata := rec.metadata })))

/-- Model of `rerank` (src/libs/pinecone.ts lines 107-132): rerank documents
against the query with `topN := topK`; a thrown error is rethrown. -/
def rerankLib (env : Env) (query : String) (topK : Int) : W RerankResult :=
  callW (.pineRerank query topK) (env.rerankRaw query topK)

/-- Batches of 100 used by `upsertVectors` (src/libs/pinecone.ts lines 29-34). -/
def upsertBatches (vectors : List VectorRecord) : List (List VectorRecord) :=
  (List.range ((vectors.length + 99) / 100)).map
    (fun k => (vectors.drop (k * 100)).take 100)

/-- Sequentially upsert the batches, stopping at the first thrown error. -/
def upsertLoop (env : Env) (indexName : String) :
    List (List VectorRecord) → Except JsErr Unit × List TraceNode
  | [] => (.ok (), [])
  | b :: bs =>
    match env.upsertRaw indexName b with
    | .ok _ =>
      match upsertLoop env indexName bs with
      | (r, tr) => (r, .seq (.pineUpsert indexName b) :: tr)
    | .error e => (.error e, [.seq (.pineUpsert indexName b)])

/-- Model of `upsertVectors` (src/libs/pinecone.ts lines 22-48): upload the
vectors in batches of 100; a thrown error is rethrown. -/
def upsertVectors (env : Env) (indexName : String) (vectors : List VectorRecord) :
    Except JsErr Unit × List TraceNode :=
  upsertLoop env indexName (upsertBatches vectors)

/-! ### Document formatting shared by the search and rerank routes -/

/-- Fuel-indexed worker for `text.replace(/\x7b([^\x7d]*)\x7d/g, "$1")`:
each brace-delimited group is replaced by its contents; an unmatched opening
brace (no closing brace afterwards) is left as is. -/
def stripBracesGo : Nat → List Char → List Char
  | _, [] => []
  | 0, l => l
  | fuel + 1, c :: cs =>
    if c = Char.ofNat 123 then
      match cs.dropWhile (fun d => d ≠ Char.ofNat 125) with
      | [] => c :: cs
      | _ :: rest => cs.takeWhile (fun d => d ≠ Char.ofNat 125) ++ stripBracesGo fuel rest
    else c :: stripBracesGo fuel cs

/-- Model of the `cleanText` computation of the search and rerank routes:
convert `\x7bword\x7d` to `word`. -/
def stripBraces (s : String) : String :=
  String.mk (stripBracesGo s.toList.length s.toList)

/-- A document of the search / rerank response, built from a Pinecone match
(src/app/api/search/route.ts lines 240-248 and 327-335). -/
structure Doc : Type where
  id : String
  score : Option Int
  text : String
  abbr : Option String
  book : Option String
  chapter : Option Int
  verse : Option Int
deriving DecidableEq, Repr

/-- Build a response document from a Pinecone match:
`text` falls back to "No text available" when the metadata text is falsy. -/
def docOfMatch (m : PineMatch) : Doc where
  id := m.id
  score := m.score
  text := jsOrStr (m.metadata.bind (fun md => md.text)) "No text available"
  abbr := m.metadata.bind (fun md => md.abbr)
  book := m.metadata.bind (fun md => md.book)
  chapter := m.metadata.bind (fun md => md.chapter)
  verse := m.metadata.bind (fun md => md.verse)

/-- Model of `doc.book || doc.abbrev.toUpperCase()`: a falsy `book` falls back
to upper-casing `abbrev`, which throws a TypeError when `abbrev` is
undefined. -/
def jsBookName (book : Option String) (abbr : Option String) : Except JsErr String :=
  match book with
  | some b =>
    if b = "" then
      match abbr with
      | none => .error (.exn "TypeError")
      | some a => .ok (toUpperString a)
    else .ok b
  | none =>
    match abbr with
    | none => .error (.exn "TypeError")
    | some a => .ok (toUpperString a)

/-- Model of one line of the verse listing:
`` `${bookName} ${doc.chapter}:${doc.verse} - ${cleanText}` ``. -/
def formatDoc (d : Doc) : Except JsErr String :=
  (jsBookName d.book d.abbr).map (fun bookName =>
    bookName ++ " " ++ optIntStr d.chapter ++ ":" ++ optIntStr d.verse ++ " - " ++
      stripBraces d.text)

/-- Fallible map over a list, propagating the first thrown error. -/
def mapExcept {α β : Type} (f : α → Except JsErr β) : List α → Except JsErr (List β)
  | [] => .ok []
  | a :: as' =>
    match f a with
    | .error e => .error e
    | .ok b =>
      match mapExcept f as' with
      | .error e => .error e
      | .ok bs => .ok (b :: bs)

/-- Model of `documents.map(formatDoc).join("\n\n")`. -/
def formatJoin (docs : List Doc) : Except JsErr String :=
  (mapExcept formatDoc docs).map (fun lines => String.intercalate "\n\n" lines)

/-! ### The prompt-based LLM operations of the search / rerank routes

Each operation sends one prompt to the LLM and is wrapped in a try/catch that
substitutes a default on a thrown error. -/

/-- The rejection message returned for non-Bible questions. -/
def nonBiblicalMsg : String :=
  "I only answer questions related to the Bible, Christianity, and faith. Please ask me about scripture, biblical stories, Christian teachings, or spiritual guidance."

/-- Model of the Bible relevance check (src/app/api/search/route.ts lines
73-109): returns whether processing continues (`true`) or the request is
rejected as non-biblical (`false`); a thrown error lets the query through. -/
def relevanceCheckW (r : Except JsErr (Option String)) : W Bool :=
  tryCatchW
    (do
      let c ← callW (.llm .relevance) r
      pure ((c.map (fun s => toUpperString (jsTrim s))) = some "YES"))
    (fun _ => pure true)

/-- Model of the query cleanup step (src/app/api/search/route.ts lines
111-132): the trimmed LLM reply when truthy, otherwise the original query;
a thrown error keeps the original query. -/
def cleanupW (r : Except JsErr (Option String)) (query : String) : W String :=
  tryCatchW
    (do
      let c ← callW (.llm .cleanup) r
      pure (jsOrStr (c.map jsTrim) query))
    (fun _ => pure query)

/-- Response-style preference of the user, as computed by
`analyzeResponsePreference`. -/
structure RespPref : Type where
  wantsSummary : Bool
  responseStyle : String
deriving DecidableEq, Repr

/-- Model of `analyzeResponsePreference` (src/app/api/search/route.ts lines
135-170): VERSE_ONLY / DETAILED / default summary; a thrown error defaults to
summary. -/
def preferenceW (r : Except JsErr (Option String)) : W RespPref :=
  tryCatchW
    (do
      let c ← callW (.llm .preference) r
      let p := c.map jsTrim
      pure (if p = some "VERSE_ONLY" then ⟨false, "verse_only"⟩
            else if p = some "DETAILED" then ⟨true, "detailed"⟩
            else ⟨true, "summary"⟩))
    (fun _ => pure ⟨true, "summary"⟩)

/-- Model of `normalizeBookName` (src/app/api/search/route.ts lines 22-60):
the trimmed reply unless it is falsy or "INVALID" (then `null`); a thrown
error falls back to the original book name. -/
def normalizeBookName (env : Env) (bookName : String) : W (Option String) :=
  tryCatchW
    (do
      let c ← callW (.llm (.normalize bookName)) (env.normalize bookName)
      pure (match c.map jsTrim with
            | none => none
            | some t => if t = "" || t = "INVALID" then none else some t))
    (fun _ => pure (some bookName))

/-- Model of the summary generation on the exact-verse path of the search
route (lines 261-303): on success a nonempty summary is appended to the verse
listing; on a thrown error the verse listing alone is the response. -/
def summarizeExactW (r : Except JsErr (Option String)) (verses : String) : W String :=
  tryCatchW
    (do
      let c ← callW (.llm .summarize) r
      let summary := c.getD ""
      pure (if summary = "" then verses
            else verses ++ "\n\n📝 Summary:\n" ++ summary))
    (fun _ => pure verses)

/-- Model of the summary generation on the vector-search path of the search
route (lines 373-393): like the exact path, but a thrown error falls back to a
canned listing message. -/
def summarizeVectorW (r : Except JsErr (Option String)) (query verses : String) : W String :=
  tryCatchW
    (do
      let c ← callW (.llm .summarize) r
      let summary := c.getD ""
      pure (if summary = "" then verses
            else verses ++ "\n\n📝 Summary:\n" ++ summary))
    (fun _ => pure ("Here are some relevant Bible verses about \"" ++ query ++ "\":\n\n" ++ verses))

/-! ### Verse reference extraction (search route)

Functional port of `extractVerseReferences` (src/app/api/search/route.ts
lines 177-197), whose regex is
`(?:^|\s)([1-3]?\s*[a-zA-Z]+(?:\s+[a-zA-Z]+)*?)\s+(\d+):(\d+)(?:-(\d+))?(?=\s|$)`
executed globally.  The port performs leftmost scanning with the lazy word
quantifier tried shortest-first; maximal munch is sound for the letter, digit
and whitespace runs because each is followed by a character of a different
class. -/

/-- One stored match of `extractVerseReferences`: the route pushes
`[match[0].trim(), match[1].trim(), match[2], match[3], match[4]]`. -/
structure VerseMatchR : Type where
  full : String
  book : String
  chapter : String
  startVerse : String
  endVerse : Option String
deriving DecidableEq, Repr

/-- Lookahead `(?=\s|$)` at the given remainder. -/
def lookaheadOk : List Char → Bool
  | [] => true
  | c :: _ => jsIsSpace c

/-- Result of matching the numeric tail `\s+(\d+):(\d+)(?:-(\d+))?(?=\s|$)`. -/
structure TailMatch : Type where
  chapterDigits : List Char
  verseDigits : List Char
  endDigits : Option (List Char)
  consumed : List Char
  rest : List Char
deriving DecidableEq, Repr

/-- Match the numeric tail of the verse reference pattern at a remainder. -/
def matchTail (l : List Char) : Option TailMatch :=
  let sp := l.takeWhile jsIsSpace
  if sp.isEmpty then none else
  let l1 := l.dropWhile jsIsSpace
  let ch := l1.takeWhile Char.isDigit
  if ch.isEmpty then none else
  match l1.dropWhile Char.isDigit with
  | [] => none
  | c :: l3 =>
    if c = ':' then
      let v := l3.takeWhile Char.isDigit
      if v.isEmpty then none else
      let l4 := l3.dropWhile Char.isDigit
      match l4 with
      | [] => some ⟨ch, v, none, sp ++ ch ++ [':'] ++ v, []⟩
      | d :: l5 =>
        if d = '-' then
          let e := l5.takeWhile Char.isDigit
          if e.isEmpty then none else
          let l6 := l5.dropWhile Char.isDigit
          if lookaheadOk l6 then
            some ⟨ch, v, some e, sp ++ ch ++ [':'] ++ v ++ ['-'] ++ e, l6⟩
          else none
        else if jsIsSpace d then
          some ⟨ch, v, none, sp ++ ch ++ [':'] ++ v, l4⟩
        else none
    else none

/-- Result of matching the whole core pattern (capture group 1 plus tail). -/
structure CoreMatch : Type where
  bookRaw : List Char
  chapterDigits : List Char
  verseDigits : List Char
  endDigits : Option (List Char)
  consumed : List Char
  rest : List Char
deriving DecidableEq, Repr

/-- Lazy expansion of `(?:\s+[a-zA-Z]+)*?`: try the tail with the words
accumulated so far, and only on failure consume one more word. -/
def tryWordsGo : Nat → List Char → List Char → Option CoreMatch
  | fuel, book, rest =>
    match matchTail rest with
    | some t => some ⟨book, t.chapterDigits, t.verseDigits, t.endDigits, book ++ t.consumed, t.rest⟩
    | none =>
      match fuel with
      | 0 => none
      | fuel + 1 =>
        let sp := rest.takeWhile jsIsSpace
        if sp.isEmpty then none else
        let r1 := rest.dropWhile jsIsSpace
        let w := r1.takeWhile Char.isAlpha
        if w.isEmpty then none else
        tryWordsGo fuel (book ++ sp ++ w) (r1.dropWhile Char.isAlpha)

/-- Match `[1-3]?\s*[a-zA-Z]+(?:\s+[a-zA-Z]+)*?` followed by the tail, where
the optional leading digit has already been split off. -/
def matchBookFrom (firstDigit : Option Char) (l : List Char) : Option CoreMatch :=
  let sp0 := l.takeWhile jsIsSpace
  let l0 := l.dropWhile jsIsSpace
  let w0 := l0.takeWhile Char.isAlpha
  if w0.isEmpty then none else
  let rest0 := l0.dropWhile Char.isAlpha
  let digitPart := match firstDigit with | some d => [d] | none => []
  tryWordsGo rest0.length (digitPart ++ sp0 ++ w0) rest0

/-- Match the core pattern at a position, trying the optional `[1-3]` digit
greedily first. -/
def matchCoreAt (l : List Char) : Option CoreMatch :=
  match l with
  | [] => none
  | c :: cs =>
    if c = '1' || c = '2' || c = '3' then
      match matchBookFrom (some c) cs with
      | some m => some m
      | none => matchBookFrom none l
    else matchBookFrom none l

/-- Turn a core match (plus the consumed boundary characters) into the record
the route stores. -/
def mkVerseMatch (lead : List Char) (m : CoreMatch) : VerseMatchR where
  full := jsTrim (String.mk (lead ++ m.consumed))
  book := jsTrim (String.mk m.bookRaw)
  chapter := String.mk m.chapterDigits
  startVerse := String.mk m.verseDigits
  endVerse := m.endDigits.map String.mk

/-- Global scan: attempt a match at each position left to right (the `^`
alternative of `(?:^|\s)` applies only at position 0; the `\s` alternative
consumes one whitespace character), resuming after each match. -/
def scanGo : Nat → Bool → List Char → List VerseMatchR
  | 0, _, _ => []
  | _, _, [] => []
  | fuel + 1, atStart, c :: cs =>
    let attempt : Option (List Char × CoreMatch) :=
      match (if atStart then matchCoreAt (c :: cs) else none) with
      | some m => some ([], m)
      | none =>
        if jsIsSpace c then
          match matchCoreAt cs with
          | some m => some ([c], m)
          | none => none
        else none
    match attempt with
    | some (lead, m) => mkVerseMatch lead m :: scanGo fuel false m.rest
    | none => scanGo fuel false cs

/-- Model of `extractVerseReferences` (src/app/api/search/route.ts lines
177-197). -/
def extractVerseReferences (text : String) : List VerseMatchR :=
  scanGo (text.toList.length + 1) true text.toList

example : extractVerseReferences "John 3:16" =
    [⟨"John 3:16", "John", "3", "16", none⟩] := by decide
example : extractVerseReferences "give me 1 Corinthians 13:4-7 please" =
    [⟨"1 Corinthians 13:4-7", "1 Corinthians", "13", "4", some "7"⟩] := by decide
example : extractVerseReferences "tell me about love" = [] := by decide
example : extractVerseReferences "John 3:16 and Romans 8:28" =
    [⟨"John 3:16", "John", "3", "16", none⟩,
     ⟨"and Romans 8:28", "and Romans", "8", "28", none⟩] := by
  decide

/-! ### Request bodies and the /api/search route handler -/

/-- A specific verse request object of the analyze routes' bodies. -/
structure SpecVerse : Type where
  book : String
  chapter : Int
  verse : Int
deriving DecidableEq, Repr

/-- JSON request body of the API routes (fields the handlers destructure). -/
structure ReqBody : Type where
  query : Option String := none
  topK : Option Int := none
  specificVerses : Option (List SpecVerse) := none
deriving DecidableEq, Repr

/-- Response of the /api/search route: an HTTP error, or the JSON payload
`{query, documents, total, aiResponse, verses}`. -/
inductive SearchResp : Type
  | err (status : Nat) (message : String)
  | ok (query : String) (documents : List Doc) (total : Nat)
       (aiResponse : String) (verses : String)
deriving DecidableEq, Repr

/-- Inclusive integer range `start..stop` traversed by
`for (let v = start; v <= stop; v++)`. -/
def intRangeIncl (start stop : Int) : List Int :=
  if start ≤ stop then (List.range (stop - start + 1).toNat).map (fun k => start + (k : Int))
  else []

/-- Inner verse loop of the exact-fetch branch (src/app/api/search/route.ts
lines 221-237): fetch each verse id in the range, keeping the found records. -/
def searchFetchVerses (cfg : Config) (env : Env) (book : String) (chapterNum : Int) :
    List Int → W (List PineMatch)
  | [] => pure []
  | v :: vs => do
    let exactMatch ← fetchVectorById env cfg.kjvIndex (searchFetchId book chapterNum v)
    let rest ← searchFetchVerses cfg env book chapterNum vs
    pure (match exactMatch with
          | some rec => rec :: rest
          | none => rest)

/-- Outer loop of the exact-fetch branch (src/app/api/search/route.ts lines
206-237): normalize each matched book name (skipping the match when the
normalizer returns null) and fetch the requested verse range. -/
def searchExactLoop (cfg : Config) (env : Env) : List VerseMatchR → W (List PineMatch)
  | [] => pure []
  | m :: ms => do
    let chapterNum := digitsToInt m.chapter
    let startVerseNum := digitsToInt m.startVerse
    let endVerseNum := match m.endVerse with
      | some e => digitsToInt e
      | none => startVerseNum
    let normalizedBookName ← normalizeBookName env m.book
    let here ← match normalizedBookName with
      | none => pure []
      | some book => searchFetchVerses cfg env book chapterNum (intRangeIncl startVerseNum endVerseNum)
    let rest ← searchExactLoop cfg env ms
    pure (here ++ rest)

/-- Body of the /api/search POST handler inside its top-level try
(src/app/api/search/route.ts lines 63-416). -/
def searchInner (cfg : Config) (env : Env) (b : ReqBody) : W SearchResp := do
  if jsFalsyStr b.query then
    pure (.err 400 "Query is required")
  else
    let query := b.query.getD ""
    let topK := b.topK.getD 5
    let isRelevant ← relevanceCheckW env.relevance
    if !isRelevant then
      pure (.ok query [] 0 nonBiblicalMsg "")
    else do
      let cleanedQuery ← cleanupW env.cleanup query
      let responsePreference ← preferenceW env.preference
      let verseMatches := extractVerseReferences cleanedQuery
      let requestedVerses ←
        if verseMatches.length > 0 then searchExactLoop cfg env verseMatches else pure []
      if requestedVerses.length > 0 then do
        let documents := requestedVerses.map docOfMatch
        let verses ← liftErr (formatJoin documents)
        let aiResponse ←
          if responsePreference.wantsSummary then summarizeExactW env.summarize verses
          else pure verses
        pure (.ok query documents documents.length aiResponse verses)
      else do
        let queryEmbedding ← callW (.embedText cleanedQuery) (env.embed cleanedQuery)
        let results ← queryVectors env cfg.kjvIndex queryEmbedding topK
        let documents := results.map docOfMatch
        if documents.length > 0 then do
          let verses ← liftErr (formatJoin documents)
          let aiResponse ←
            if responsePreference.wantsSummary then summarizeVectorW env.summarize query verses
            else pure verses
          pure (.ok query documents documents.length aiResponse verses)
        else
          pure (.ok query documents documents.length "" "")

/-- The /api/search POST handler: a failed body parse or any error escaping
the inner try lands in the top-level catch, which returns the generic 500
(src/app/api/search/route.ts lines 417-422). -/
def searchPOST (cfg : Config) (env : Env) (body : Except JsErr ReqBody) :
    SearchResp × List RCall :=
  match body with
  | .error _ => (.err 500 "Internal server error", [])
  | .ok b =>
    match searchInner cfg env b with
    | (.ok r, tr) => (r, tr)
    | (.error _, tr) => (.err 500 "Internal server error", tr)

/-- The /api/search handler's result together with its trace of external
calls: every call is sequentially awaited (no `Promise.all` in this route). -/
def searchRoute (cfg : Config) (env : Env) (body : Except JsErr ReqBody) :
    SearchResp × List TraceNode :=
  match searchPOST cfg env body with
  | (r, tr) => (r, mapSeq tr)

/-! ### The /api/search-rerank route -/

/-- A reranked document: `{...documents[result.index], rerankScore}`.  When
`result.index` is out of range, the spread of `undefined` leaves only the
rerank score. -/
structure RerankedDoc : Type where
  doc : Option Doc
  rerankScore : Int
deriving DecidableEq, Repr

/-- Model of one line of the rerank route's verse listing: accessing the
fields of a missing base document throws a TypeError. -/
def formatRerankedDoc (d : RerankedDoc) : Except JsErr String :=
  match d.doc with
  | some doc => formatDoc doc
  | none => .error (.exn "TypeError")

/-- Model of `rerankedDocuments.map(...).join("\n\n")`. -/
def formatJoinReranked (docs : List RerankedDoc) : Except JsErr String :=
  (mapExcept formatRerankedDoc docs).map (fun lines => String.intercalate "\n\n" lines)

/-- Model of the rerank route's summary generation (lines 139-154): the reply
content or "", with a canned listing message on a thrown error. -/
def summarizeRerankW (r : Except JsErr (Option String)) (query verses : String) : W String :=
  tryCatchW
    (do
      let c ← callW (.llm .summarize) r
      pure (c.getD ""))
    (fun _ => pure ("Here are some relevant Bible verses about \"" ++ query ++ "\":\n\n" ++ verses))

/-- Response of the /api/search-rerank route.  The non-biblical rejection
response carries no `reranked` field (`reranked = none`); the final response
sets it to `true`. -/
inductive RerankResp : Type
  | err (status : Nat) (message : String)
  | ok (query : String) (documents : List RerankedDoc) (total : Nat)
       (aiResponse : String) (verses : String) (reranked : Option Bool)
deriving DecidableEq, Repr

/-- Body of the /api/search-rerank POST handler inside its top-level try
(src/app/api/search-rerank/route.ts lines 20-164). -/
def rerankInner (cfg : Config) (env : Env) (b : ReqBody) : W RerankResp := do
  if jsFalsyStr b.query then
    pure (.err 400 "Query is required")
  else
    let query := b.query.getD ""
    let topK := b.topK.getD 10
    let isRelevant ← relevanceCheckW env.relevance
    if !isRelevant then
      pure (.ok query [] 0 nonBiblicalMsg "" none)
    else do
      let cleanedQuery ← cleanupW env.cleanup query
      let queryEmbedding ← callW (.embedText cleanedQuery) (env.embed cleanedQuery)
      let results ← queryVectors env cfg.kjvIndex queryEmbedding topK
      let documents := results.map docOfMatch
      let rerankedResults ← rerankLib env query 5
      let rerankedDocuments := rerankedResults.data.map
        (fun row => RerankedDoc.mk (documents.get? row.index) row.score)
      let verses ← liftErr (formatJoinReranked rerankedDocuments)
      let aiResponse ←
        if rerankedDocuments.length > 0 then summarizeRerankW env.summarize query verses
        else pure ""
      pure (.ok query rerankedDocuments rerankedDocuments.length aiResponse verses (some true))

/-- The /api/search-rerank POST handler with its top-level catch
(src/app/api/search-rerank/route.ts lines 165-170). -/
def rerankPOST (cfg : Config) (env : Env) (body : Except JsErr ReqBody) :
    RerankResp × List RCall :=
  match body with
  | .error _ => (.err 500 "Internal server error", [])
  | .ok b =>
    match rerankInner cfg env b with
    | (.ok r, tr) => (r, tr)
    | (.error _, tr) => (.err 500 "Internal server error", tr)

/-- The /api/search-rerank handler's result and trace (all calls sequentially
awaited). -/
def rerankRoute (cfg : Config) (env : Env) (body : Except JsErr ReqBody) :
    RerankResp × List TraceNode :=
  match rerankPOST cfg env body with
  | (r, tr) => (r, mapSeq tr)

/-! ### src/libs/verseAnalysis.ts -/

/-- Testament tag rendered as the string used in identifiers and results. -/
def testamentStr : Testament → String
  | .OT => "OT"
  | .NT => "NT"

/-- String interpolation of an optional string: JavaScript renders `undefined`
as "undefined". -/
def optStrUndef (x : Option String) : String :=
  match x with
  | none => "undefined"
  | some s => s

/-- A KJV search result as mapped by `searchKJVVerses`
(src/libs/verseAnalysis.ts lines 46-53). -/
structure KjvVerse : Type where
  id : String
  score : Option Int
  text : String
  book : Option String
  chapter : Option Int
  verse : Option Int
deriving DecidableEq, Repr

/-- Build a KJV result from a Pinecone match. -/
def kjvOfMatch (m : PineMatch) : KjvVerse where
  id := m.id
  score := m.score
  text := jsOrStr (m.metadata.bind (fun md => md.text)) "No text available"
  book := m.metadata.bind (fun md => md.book)
  chapter := m.metadata.bind (fun md => md.chapter)
  verse := m.metadata.bind (fun md => md.verse)

/-- Model of `searchKJVVerses` (src/libs/verseAnalysis.ts lines 39-58): embed
the query, search the KJV index, and map the matches; its catch logs and
rethrows, so errors propagate to the caller. -/
def searchKJVVerses (cfg : Config) (env : Env) (query : String) (topK : Int) :
    W (List KjvVerse) := do
  let queryEmbedding ← callW (.embedText query) (env.embed query)
  let results ← queryVectors env cfg.kjvIndex queryEmbedding topK
  pure (results.map kjvOfMatch)

/-- Original-language data returned by `findOriginalLanguageVerse`. -/
structure OrigData : Type where
  text : String
  language : String
  testament : String
deriving DecidableEq, Repr

/-- The identifier string built at src/libs/verseAnalysis.ts line 76, with the
chapter and verse numbers possibly `undefined` (they come from Pinecone
metadata when called from `analyzeVerses`). -/
def originalFetchIdOpt (testament book : String) (chapter verse : Option Int) : String :=
  testament ++ "-" ++ jsReplaceSpaces (toLowerString book) ++ "-" ++
    optIntStr chapter ++ "-" ++ optIntStr verse

/-- Model of `findOriginalLanguageVerse` (src/libs/verseAnalysis.ts lines
60-107).  The whole body is wrapped in a try/catch that returns `null` on any
thrown error (including the TypeError raised by `book.toLowerCase()` when the
book is `undefined`).  An exact-ID fetch is tried first; on a miss, a
similarity search over the top 3 matches picks the verse with matching
metadata, falling back to the first match. -/
def findOriginalLanguageVerse (cfg : Config) (env : Env) (book : Option String)
    (chapter verse : Option Int) : W (Option OrigData) :=
  tryCatchW
    (do
      let b ← liftErr (match book with
        | none => .error (.exn "TypeError")
        | some b => .ok b)
      let testament := determineTestament b
      let language := if testament = .OT then "hebrew" else "greek"
      let indexName := if testament = .OT then cfg.hebrewIndex else cfg.greekIndex
      match indexName with
      | none => pure none
      | some idx => do
        let verseId := originalFetchIdOpt (testamentStr testament) b chapter verse
        let fetched ← fetchVectorById env idx verseId
        let originalVerse ←
          match fetched with
          | some r => pure (some r)
          | none => do
            let searchQuery := b ++ " " ++ optIntStr chapter ++ ":" ++ optIntStr verse
            let queryEmbedding ← callW (.embedText searchQuery) (env.embed searchQuery)
            let results ← queryVectors env idx queryEmbedding 3
            let found := results.find? (fun m =>
              ((m.metadata.bind PineMeta.book).map toLowerString == some (toLowerString b)) &&
              ((m.metadata.bind PineMeta.chapter) == chapter) &&
              ((m.metadata.bind PineMeta.verse) == verse))
            pure (match found with
                  | some x => some x
                  | none => results.head?)
        pure (originalVerse.map (fun ov =>
          OrigData.mk (jsOrStr (ov.metadata.bind PineMeta.text) "") language
            (testamentStr testament))))
    (fun _ => pure none)

/-- A verse result of the analysis pipeline (the `VerseResult` interface of
src/libs/verseAnalysis.ts). -/
structure VerseResult : Type where
  id : String
  kjvText : String
  originalText : Option String
  originalLanguage : Option String
  book : Option String
  chapter : Option Int
  verse : Option Int
  testament : String
deriving DecidableEq, Repr

/-- Model of `generateExplanation` (src/libs/verseAnalysis.ts lines 162-217):
one LLM call; a falsy reply becomes a fixed message, and a thrown error falls
back to a plain listing of the verses. -/
def generateExplanation (env : Env) (query : String) (verses : List VerseResult) : W String :=
  tryCatchW
    (do
      let c ← callW (.llm .explainVerses) env.explain
      pure (jsOrStr c "Unable to generate explanation."))
    (fun _ => pure ("Here are the relevant verses for \"" ++ query ++ "\":\n\n" ++
      String.intercalate "\n\n" (verses.map (fun v =>
        optStrUndef v.book ++ " " ++ optIntStr v.chapter ++ ":" ++ optIntStr v.verse ++
          " - " ++ v.kjvText))))

/-- The `AnalysisResult` interface of src/libs/verseAnalysis.ts. -/
structure AnalysisResult : Type where
  verses : List VerseResult
  explanation : String
  query : String
  analysisType : Option String := none
deriving DecidableEq, Repr

/-- The per-verse loop of `analyzeVerses` (src/libs/verseAnalysis.ts lines
127-144): look up the original language text for each KJV verse sequentially.
When the lookup returns `null` and the verse's book metadata is missing,
`determineTestament(kjvVerse.book)` throws, and the error propagates. -/
def analyzeVersesLoop (cfg : Config) (env : Env) : List KjvVerse → W (List VerseResult)
  | [] => pure []
  | kv :: rest => do
    let originalData ← findOriginalLanguageVerse cfg env kv.book kv.chapter kv.verse
    let testament ← match originalData with
      | some od => pure od.testament
      | none => liftErr (match kv.book with
          | none => .error (.exn "TypeError")
          | some b => .ok (testamentStr (determineTestament b)))
    let vr : VerseResult :=
      { id := kv.id, kjvText := kv.text,
        originalText := originalData.map OrigData.text,
        originalLanguage := originalData.map OrigData.language,
        book := kv.book, chapter := kv.chapter, verse := kv.verse,
        testament := testament }
    let rest' ← analyzeVersesLoop cfg env rest
    pure (vr :: rest')

/-- Model of `analyzeVerses` (src/libs/verseAnalysis.ts lines 109-160): KJV
search, per-verse original-language lookup, explanation; its catch logs and
rethrows, so errors propagate to the caller. -/
def analyzeVerses (cfg : Config) (env : Env) (query : String) (topK : Int) :
    W AnalysisResult := do
  let kjvResults ← searchKJVVerses cfg env query topK
  if kjvResults.length = 0 then
    pure { verses := [], explanation := "No verses found matching your query.",
           query := query }
  else do
    let versesWithOriginals ← analyzeVersesLoop cfg env kjvResults
    let explanation ← generateExplanation env query versesWithOriginals
    pure { verses := versesWithOriginals, explanation := explanation, query := query }

/-- The `find` of `analyzeSpecificVerse` (src/libs/verseAnalysis.ts lines
228-232): the predicate `result.book.toLowerCase() === book.toLowerCase()`
throws when a result's book metadata is `undefined`. -/
def findExactKjv : List KjvVerse → String → Int → Int → Except JsErr (Option KjvVerse)
  | [], _, _, _ => .ok none
  | r :: rs, book, c, v =>
    match r.book with
    | none => .error (.exn "TypeError")
    | some b =>
      if toLowerString b = toLowerString book && r.chapter == some c && r.verse == some v then
        .ok (some r)
      else findExactKjv rs book c v

/-- Model of `analyzeSpecificVerse` (src/libs/verseAnalysis.ts lines
220-267): search the KJV index for the reference, pick the exact (or first)
match, attach the original-language text, and generate an explanation; its
catch logs and rethrows. -/
def analyzeSpecificVerse (cfg : Config) (env : Env) (book : String) (chapter verse : Int) :
    W AnalysisResult := do
  let query := book ++ " " ++ toString chapter ++ ":" ++ toString verse
  let kjvResults ← searchKJVVerses cfg env query 3
  let found ← liftErr (findExactKjv kjvResults book chapter verse)
  let exactMatch := match found with
    | some x => some x
    | none => kjvResults.head?
  match exactMatch with
  | none =>
    pure { verses := [],
           explanation := "Verse " ++ book ++ " " ++ toString chapter ++ ":" ++
             toString verse ++ " not found.",
           query := query }
  | some em => do
    let originalData ← findOriginalLanguageVerse cfg env (some book) (some chapter) (some verse)
    let verseResult : VerseResult :=
      { id := em.id, kjvText := em.text,
        originalText := originalData.map OrigData.text,
        originalLanguage := originalData.map OrigData.language,
        book := em.book, chapter := em.chapter, verse := em.verse,
        testament := match originalData with
          | some od => od.testament
          | none => testamentStr (determineTestament book) }
    let explanation ← generateExplanation env query [verseResult]
    pure { verses := [verseResult], explanation := explanation, query := query }

/-! ### The analyze-verse route -/

/-- Handler computation whose trace may contain `Promise.all` fan-out nodes. -/
def WT (α : Type) : Type := Except JsErr α × List TraceNode

/-- Sequencing of fan-out-capable handler computations (the bind of `WT`). -/
def wtBind {α β : Type} (x : WT α) (f : α → WT β) : WT β :=
  match x with
  | (.ok a, tr) => match f a with | (r, tr') => (r, tr ++ tr')
  | (.error e, tr) => (.error e, tr)

instance : Monad WT where
  pure a := (.ok a, [])
  bind := wtBind

/-- Lift a flat sequential computation into a fan-out-capable trace. -/
def liftW {α : Type} (x : W α) : WT α :=
  match x with
  | (r, tr) => (r, mapSeq tr)

/-- The message attached to an analyze-route 500 response
(`error instanceof Error ? error.message : "Unknown error"`). -/
def errMessage : JsErr → String
  | .exn tag => tag

/-- Model of `originalText: verse.originalText || null` (a falsy string
becomes `null`). -/
def jsOrNullStr (x : Option String) : Option String :=
  match x with
  | none => none
  | some s => if s = "" then none else some s

/-- A formatted verse of the analyze / stream responses
(src/unnamed/part_000 lines 123-132). -/
structure FmtVerse : Type where
  reference : String
  kjvText : String
  originalText : Option String
  originalLanguage : Option String
  testament : String
  book : Option String
  chapter : Option Int
  verse : Option Int
deriving DecidableEq, Repr

/-- Format one analysis verse for the response. -/
def fmtVerse (v : VerseResult) : FmtVerse where
  reference := optStrUndef v.book ++ " " ++ optIntStr v.chapter ++ ":" ++ optIntStr v.verse
  kjvText := v.kjvText
  originalText := jsOrNullStr v.originalText
  originalLanguage := jsOrNullStr v.originalLanguage
  testament := v.testament
  book := v.book
  chapter := v.chapter
  verse := v.verse

/-- Response of the /api/analyze-verse route: an HTTP error (the 500 carries
the error's message), or the JSON payload.  The non-biblical rejection
response has no `total` and no `timestamp` field (both `none`); the final
response carries both. -/
inductive AnalyzeResp : Type
  | err (status : Nat) (error : String) (message : Option String)
  | ok (query : String) (verses : List FmtVerse) (explanation : String)
       (analysisType : Option String) (total : Option Nat) (timestamp : Option String)
deriving DecidableEq, Repr

/-- The `Promise.all` fan-out over the requested specific verses
(src/unnamed/part_000 lines 54-58): each branch runs `analyzeSpecificVerse`
with its own call trace. -/
def analyzeBranches (cfg : Config) (env : Env) (svs : List SpecVerse) :
    List (Except JsErr AnalysisResult × List RCall) :=
  svs.map (fun sv => analyzeSpecificVerse cfg env sv.book sv.chapter sv.verse)

/-- Model of awaiting `Promise.all`: the results in order, or the first
rejection. -/
def collectAll : List (Except JsErr AnalysisResult × List RCall) →
    Except JsErr (List AnalysisResult)
  | [] => .ok []
  | (r, _) :: rest =>
    match r with
    | .error e => .error e
    | .ok a => (collectAll rest).map (fun as' => a :: as')

/-- Model of the combined-explanation LLM call for multiple specific verses
(src/unnamed/part_000 lines 72-107): a falsy reply becomes a fixed message; a
thrown error joins the individual explanations. -/
def combinedExplainW (env : Env) (verseResults : List AnalysisResult) : W String :=
  tryCatchW
    (do
      let c ← callW (.llm .combinedExplain) env.combined
      pure (jsOrStr c "Unable to generate explanation."))
    (fun _ => pure (String.intercalate "\n\n---\n\n"
      (verseResults.map AnalysisResult.explanation)))

/-- The specific-verses branch of the analyze route: fan out, combine verses,
and produce a combined explanation. -/
def analyzeSpecificPath (cfg : Config) (env : Env) (query : String) (svs : List SpecVerse) :
    WT AnalysisResult := do
  let branches := analyzeBranches cfg env svs
  let verseResults ← (collectAll branches, [TraceNode.par (branches.map Prod.snd)])
  let allVerses := (verseResults.map AnalysisResult.verses).flatten
  let combinedExplanation ←
    match verseResults with
    | [single] => pure single.explanation
    | _ => liftW (combinedExplainW env verseResults)
  pure { verses := allVerses, explanation := combinedExplanation, query := query,
         analysisType := some "specific_verses" }

/-- Body of the /api/analyze-verse POST handler inside its top-level try
(src/unnamed/part_000 lines 7-141). -/
def analyzeInner (cfg : Config) (env : Env) (b : ReqBody) : WT AnalyzeResp := do
  if jsFalsyStr b.query then
    pure (.err 400 "Query is required" none)
  else
    let query := b.query.getD ""
    let topK := b.topK.getD 5
    let isRelevant ← liftW (relevanceCheckW env.relevance)
    if !isRelevant then
      pure (.ok query [] nonBiblicalMsg (some "not_biblical") none none)
    else do
      let analysisResult ←
        match b.specificVerses with
        | some svs =>
          if svs.length > 0 then analyzeSpecificPath cfg env query svs
          else do
            let ar ← liftW (analyzeVerses cfg env query (min topK 10))
            pure { ar with analysisType := some "topical_search" }
        | none => do
          let ar ← liftW (analyzeVerses cfg env query (min topK 10))
          pure { ar with analysisType := some "topical_search" }
      let formattedVerses := analysisResult.verses.map fmtVerse
      pure (.ok analysisResult.query formattedVerses analysisResult.explanation
        analysisResult.analysisType (some formattedVerses.length) (some env.now))

/-- The /api/analyze-verse POST handler with its top-level catch
(src/unnamed/part_000 lines 143-152). -/
def analyzePOST (cfg : Config) (env : Env) (body : Except JsErr ReqBody) :
    AnalyzeResp × List TraceNode :=
  match body with
  | .error e => (.err 500 "Internal server error" (some (errMessage e)), [])
  | .ok b =>
    match analyzeInner cfg env b with
    | (.ok r, tr) => (r, tr)
    | (.error e, tr) => (.err 500 "Internal server error" (some (errMessage e)), tr)

/-! ### The analyze-verse-stream route -/

/-- A server-sent event emitted by the stream route. -/
inductive SEvent : Type
  | statusMsg (message : String)
  | versesEv (verses : List FmtVerse)
  | explanationChunk (content : String)
  | complete
  | errorEv (message : String)
deriving DecidableEq, Repr

/-- Response of the stream route: an HTTP error, or a 200 stream of events. -/
inductive StreamResp : Type
  | err (status : Nat) (message : String)
  | stream (events : List SEvent)
deriving DecidableEq, Repr

/-- The error message sent as a stream event when the analysis fails. -/
def streamErrMsg : String :=
  "An error occurred while analyzing the verses. Please try again."

/-- The explanation chunks emitted by the streaming completion: each chunk
with truthy `delta.content` becomes one event. -/
def chunkEvents (chunks : List (Option String)) : List SEvent :=
  chunks.filterMap (fun c =>
    match c with
    | none => none
    | some s => if s = "" then none else some (SEvent.explanationChunk s))

/-- The verse-gathering phase of the stream body: the status and verse events
plus the analysis outcome. -/
def streamGather (cfg : Config) (env : Env) (query : String) (topK : Int)
    (specificVerses : Option (List SpecVerse)) :
    (Except JsErr AnalysisResult × List SEvent) × List TraceNode :=
  match specificVerses with
  | some svs =>
    if svs.length > 0 then
      let branches := analyzeBranches cfg env svs
      let tr := [TraceNode.par (branches.map Prod.snd)]
      match collectAll branches with
      | .error e => ((.error e, [.statusMsg "Analyzing specific verses..."]), tr)
      | .ok verseResults =>
        let allVerses := (verseResults.map AnalysisResult.verses).flatten
        ((.ok { verses := allVerses, explanation := "", query := query },
          [.statusMsg "Analyzing specific verses...",
           .versesEv (allVerses.map fmtVerse)]), tr)
    else
      match analyzeVerses cfg env query (min topK 10) with
      | (.error e, tr) => ((.error e, [.statusMsg "Finding relevant verses..."]), mapSeq tr)
      | (.ok ar, tr) =>
        ((.ok ar, [.statusMsg "Finding relevant verses...", .versesEv (ar.verses.map fmtVerse)]),
         mapSeq tr)
  | none =>
    match analyzeVerses cfg env query (min topK 10) with
    | (.error e, tr) => ((.error e, [.statusMsg "Finding relevant verses..."]), mapSeq tr)
    | (.ok ar, tr) =>
      ((.ok ar, [.statusMsg "Finding relevant verses...", .versesEv (ar.verses.map fmtVerse)]),
       mapSeq tr)

/-- The body of the stream's `start` callback: any thrown error is caught and
turned into an error event; otherwise the explanation is streamed chunk by
chunk and a completion event closes the stream. -/
def streamBody (cfg : Config) (env : Env) (query : String) (topK : Int)
    (specificVerses : Option (List SpecVerse)) : List SEvent × List TraceNode :=
  match streamGather cfg env query topK specificVerses with
  | ((.error _, evs), tr) =>
    (SEvent.statusMsg "Searching Bible verses..." :: evs ++ [.errorEv streamErrMsg], tr)
  | ((.ok ar, evs), tr) =>
    if ar.verses.length > 0 then
      match env.streamChunks with
      | .error _ =>
        (SEvent.statusMsg "Searching Bible verses..." :: evs ++
          [.statusMsg "Generating analysis with original languages...", .errorEv streamErrMsg],
         tr ++ [seqR (.llm .streamAnalysis)])
      | .ok chunks =>
        (SEvent.statusMsg "Searching Bible verses..." :: evs ++
          [.statusMsg "Generating analysis with original languages..."] ++
          chunkEvents chunks ++ [.complete],
         tr ++ [seqR (.llm .streamAnalysis)])
    else
      (SEvent.statusMsg "Searching Bible verses..." :: evs ++ [.complete], tr)

/-- The analyze-verse-stream POST handler (second segment of
src/app/api/search-rerank/route.ts): body-parse errors and errors thrown
before the stream is created land in the top-level catch (500); errors inside
the stream become error events of a 200 response. -/
def streamPOST (cfg : Config) (env : Env) (body : Except JsErr ReqBody) :
    StreamResp × List TraceNode :=
  match body with
  | .error _ => (.err 500 "Internal server error", [])
  | .ok b =>
    if jsFalsyStr b.query then (.err 400 "Query is required", [])
    else
      let query := b.query.getD ""
      let topK := b.topK.getD 5
      match relevanceCheckW env.relevance with
      | (.ok false, tr0) => (.stream [.errorEv nonBiblicalMsg], mapSeq tr0)
      | (_, tr0) =>
        match streamBody cfg env query topK b.specificVerses with
        | (evs, tr) => (.stream evs, mapSeq tr0 ++ tr)

/-! ### The parse-query (parse-intent) route -/

/-- Leading-integer parse of a string, as `parseInt` does: skip leading
whitespace, allow an optional sign, then read a nonempty digit run. -/
def parseIntStr (s : String) : Option Int :=
  let l := s.toList.dropWhile jsIsSpace
  let signed : Option (Bool × List Char) :=
    match l with
    | '-' :: rest => some (true, rest)
    | '+' :: rest => some (false, rest)
    | rest => some (false, rest)
  match signed with
  | some (neg, rest) =>
    let digits := rest.takeWhile Char.isDigit
    if digits.isEmpty then none
    else
      let n : Int := (digits.foldl (fun acc c => acc * 10 + (c.toNat - '0'.toNat)) 0 : Nat)
      some (if neg then -n else n)
  | none => none

/-- Model of `parseInt(v)` on a JSON field value: `ToString(v)` followed by a
leading-integer parse (`none` is `NaN`).  Arrays stringify to their
comma-joined elements, so parsing reduces to their first element. -/
def parseIntJs : JsVal → Option Int
  | .num n => some n
  | .str s => parseIntStr s
  | .bool _ => none
  | .null => none
  | .arr [] => none
  | .arr (v :: _) => parseIntJs v

/-- Model of `Math.min(Math.max(parseInt(parsedResult.topK) || 5, 1), 50)`
(src/unnamed/part_001 line 51): `NaN` and `0` become 5, then clamp to
`[1, 50]`. -/
def clampTopK (field : Option JsVal) : Int :=
  let parsed := match field with
    | none => none
    | some v => parseIntJs v
  let base : Int := match parsed with
    | none => 5
    | some n => if n = 0 then 5 else n
  min (max base 1) 50

/-- The string `JSON.parse` receives when the LLM reply is falsy. -/
def emptyObjStr : String := String.mk [Char.ofNat 123, Char.ofNat 125]

/-- Response of the parse-query route. -/
inductive ParseResp : Type
  | err (status : Nat) (message : String)
  | ok (cleanedQuery : JsVal) (topK : Int) (hasSpecificVerse : Bool) (specificVerses : JsVal)
deriving Repr

/-- Model of `parsedResult.cleanedQuery || query`. -/
def jsOrVal (field : Option JsVal) (query : String) : JsVal :=
  match field with
  | some v => if jsTruthy v then v else .str query
  | none => .str query

/-- Model of `parsedResult.specificVerses || []`. -/
def jsOrEmptyArr (field : Option JsVal) : JsVal :=
  match field with
  | some v => if jsTruthy v then v else .arr []
  | none => .arr []

/-- Body of the parse-query POST handler inside its top-level try
(src/unnamed/part_001 lines 6-69).  The LLM call itself is *not* inside the
inner try/catch; only `JSON.parse` of its reply and the field extraction
are. -/
def parseQueryInner (env : Env) (b : ReqBody) : W ParseResp := do
  if jsFalsyStr b.query then
    pure (.err 400 "Query is required")
  else
    let query := b.query.getD ""
    let result ← callW (.llm .intentParse) env.intent
    let resultT := result.map jsTrim
    let parseInput := jsOrStr resultT emptyObjStr
    match env.jsonParse parseInput with
    | .throwing => pure (.ok (.str query) 5 false (.arr []))
    | .object r =>
      pure (.ok (jsOrVal r.cleanedQuery query) (clampTopK r.topK)
        (match r.hasSpecificVerse with
         | some v => jsTruthy v
         | none => false)
        (jsOrEmptyArr r.specificVerses))

/-- The parse-query POST handler with its top-level catch
(src/unnamed/part_001 lines 70-75). -/
def parseQueryPOST (env : Env) (body : Except JsErr ReqBody) : ParseResp × List RCall :=
  match body with
  | .error _ => (.err 500 "Internal server error", [])
  | .ok b =>
    match parseQueryInner env b with
    | (.ok r, tr) => (r, tr)
    | (.error _, tr) => (.err 500 "Internal server error", tr)

/-- The parse-query handler's result and trace (all calls sequentially
awaited). -/
def parseQueryRoute (env : Env) (body : Except JsErr ReqBody) : ParseResp × List TraceNode :=
  match parseQueryPOST env body with
  | (r, tr) => (r, mapSeq tr)

/-! ### Proof machinery: postconditions and trace lemmas -/

theorem bind_eq_wBind {α β : Type} (x : W α) (f : α → W β) : x >>= f = wBind x f := rfl

theorem bind_eq_wtBind {α β : Type} (x : WT α) (f : α → WT β) : x >>= f = wtBind x f := rfl

theorem pure_eq_W {α : Type} (a : α) : (pure a : W α) = (.ok a, []) := rfl

theorem pure_eq_WT {α : Type} (a : α) : (pure a : WT α) = (.ok a, []) := rfl

theorem wBind_ok {α β : Type} (a : α) (tr : List RCall) (f : α → W β) :
    wBind (.ok a, tr) f = ((f a).1, tr ++ (f a).2) := by
  rcases hf : f a with ⟨r, tr'⟩
  simp [wBind, hf]

theorem wBind_error {α β : Type} (e : JsErr) (tr : List RCall) (f : α → W β) :
    wBind (.error e, tr) f = (.error e, tr) := rfl

theorem wtBind_ok {α β : Type} (a : α) (tr : List TraceNode) (f : α → WT β) :
    wtBind (.ok a, tr) f = ((f a).1, tr ++ (f a).2) := by
  rcases hf : f a with ⟨r, tr'⟩
  simp [wtBind, hf]

theorem wtBind_error {α β : Type} (e : JsErr) (tr : List TraceNode) (f : α → WT β) :
    wtBind (.error e, tr) f = (.error e, tr) := rfl

/-- Postcondition of a sequential handler computation: every successful
outcome satisfies `P`. -/
def Wsat {α : Type} (P : α → Prop) (x : W α) : Prop :=
  ∀ a tr, x = (.ok a, tr) → P a

/-- Postcondition of a fan-out-capable handler computation. -/
def WTsat {α : Type} (P : α → Prop) (x : WT α) : Prop :=
  ∀ a tr, x = (.ok a, tr) → P a

theorem Wsat_pure {α : Type} {P : α → Prop} {a : α} (h : P a) : Wsat P (pure a) := by
  intro b tr heq
  rw [pure_eq_W] at heq
  injection heq with h1 _
  injection h1 with h2
  exact h2 ▸ h

theorem Wsat_bind {α β : Type} {P : β → Prop} {x : W α} {f : α → W β}
    (h : ∀ a, Wsat P (f a)) : Wsat P (x >>= f) := by
  intro b tr heq
  rw [bind_eq_wBind] at heq
  rcases x with ⟨xr, xtr⟩
  cases xr with
  | error e => rw [wBind_error] at heq; injection heq with h1 _; exact absurd h1 (by simp)
  | ok a =>
    rw [wBind_ok] at heq
    injection heq with h1 _
    rcases hf : f a with ⟨fr, ftr⟩
    rw [hf] at h1
    exact h a b ftr (by rw [hf]; exact congrArg₂ Prod.mk h1 rfl)

theorem tryCatchW_okCase {α : Type} (a : α) (tr : List RCall) (hnd : JsErr → W α) :
    tryCatchW (.ok a, tr) hnd = (.ok a, tr) := rfl

theorem tryCatchW_errCase {α : Type} (e : JsErr) (tr : List RCall) (hnd : JsErr → W α) :
    tryCatchW (.error e, tr) hnd = ((hnd e).1, tr ++ (hnd e).2) := by
  rcases hh : hnd e with ⟨r, tr'⟩
  simp [tryCatchW, hh]

theorem Wsat_tryCatch {α : Type} {P : α → Prop} {x : W α} {hnd : JsErr → W α}
    (hx : Wsat P x) (hcatch : ∀ e, Wsat P (hnd e)) : Wsat P (tryCatchW x hnd) := by
  intro b tr heq
  rcases x with ⟨xr, xtr⟩
  cases xr with
  | ok a =>
    rw [tryCatchW_okCase] at heq
    have h1 : Except.ok a = (Except.ok b : Except JsErr α) := congrArg Prod.fst heq
    injection h1 with h2
    exact h2 ▸ hx a xtr rfl
  | error e =>
    rw [tryCatchW_errCase] at heq
    have h1 : (hnd e).1 = (Except.ok b : Except JsErr α) := congrArg Prod.fst heq
    exact hcatch e b (hnd e).2 (congrArg₂ Prod.mk h1 rfl)

theorem Wsat_callW {α : Type} {P : α → Prop} {c : RCall} {r : Except JsErr α}
    (h : ∀ a, r = .ok a → P a) : Wsat P (callW c r) := by
  intro a tr heq
  injection heq with h1 _
  exact h a h1

theorem Wsat_liftErr {α : Type} {P : α → Prop} {r : Except JsErr α}
    (h : ∀ a, r = .ok a → P a) : Wsat P (liftErr r) := by
  intro a tr heq
  injection heq with h1 _
  exact h a h1

theorem WTsat_pure {α : Type} {P : α → Prop} {a : α} (h : P a) : WTsat P (pure a) := by
  intro b tr heq
  rw [pure_eq_WT] at heq
  injection heq with h1 _
  injection h1 with h2
  exact h2 ▸ h

theorem WTsat_bind {α β : Type} {P : β → Prop} {x : WT α} {f : α → WT β}
    (h : ∀ a, WTsat P (f a)) : WTsat P (x >>= f) := by
  intro b tr heq
  rw [bind_eq_wtBind] at heq
  rcases x with ⟨xr, xtr⟩
  cases xr with
  | error e => rw [wtBind_error] at heq; injection heq with h1 _; exact absurd h1 (by simp)
  | ok a =>
    rw [wtBind_ok] at heq
    injection heq with h1 _
    rcases hf : f a with ⟨fr, ftr⟩
    rw [hf] at h1
    exact h a b ftr (by rw [hf]; exact congrArg₂ Prod.mk h1 rfl)

theorem WTsat_liftW {α : Type} {P : α → Prop} {x : W α} (h : Wsat P x) :
    WTsat P (liftW x) := by
  intro a tr heq
  rcases x with ⟨xr, xtr⟩
  have : (xr, mapSeq xtr) = ((Except.ok a : Except JsErr α), tr) := heq
  injection this with h1 _
  exact h a xtr (congrArg₂ Prod.mk h1 rfl)

theorem traceReadOnly_mapSeq (l : List RCall) : traceReadOnly (mapSeq l) = true := by
  induction l with
  | nil => rfl
  | cons c cs ih => simp [mapSeq, traceReadOnly, seqR, nodeHasWrite, isWriteCall]

theorem traceReadOnly_append (a b : List TraceNode) :
    traceReadOnly (a ++ b) = (traceReadOnly a && traceReadOnly b) := by
  simp [traceReadOnly, List.all_append]

theorem traceReadOnly_cons (n : TraceNode) (l : List TraceNode) :
    traceReadOnly (n :: l) = (!nodeHasWrite n && traceReadOnly l) := by
  simp [traceReadOnly]

theorem parCount_append (a b : List TraceNode) :
    parCount (a ++ b) = parCount a + parCount b := by
  simp [parCount, List.filter_append]

theorem parCount_mapSeq (l : List RCall) : parCount (mapSeq l) = 0 := by
  induction l with
  | nil => rfl
  | cons c cs ih => simp [mapSeq, parCount, seqR, isParNode, List.filter]

theorem applyTrace_readOnly (tr : List TraceNode) (s : Store)
    (h : traceReadOnly tr = true) : applyTrace s tr = s := by
  induction tr generalizing s with
  | nil => rfl
  | cons n ns ih =>
    rw [traceReadOnly_cons, Bool.and_eq_true] at h
    have hs : applyNode s n = s := by
      cases n with
      | par _ => rfl
      | seq c =>
        cases c with
        | read _ => rfl
        | pineUpsert _ _ => simp [nodeHasWrite, isWriteCall] at h
    simpa [applyTrace, hs] using ih s h.2

/-! ### Shared concrete fixtures used by witnesses and counterexamples -/

/-- A concrete configuration. -/
def cfgT : Config := ⟨"kjv-index", some "hebrew-index", some "greek-index"⟩

/-- A concrete metadata payload for John 3:16. -/
def metaJohn : PineMeta :=
  { text := some "For God so loved the world", book := some "John",
    chapter := some 3, verse := some 16 }

/-- A concrete Pinecone match for John 3:16. -/
def matchJohn : PineMatch :=
  { id := "John-3-16", score := some 9, metadata := some metaJohn }

/-- A concrete environment in which every external call succeeds. -/
def envA : Env where
  jsonParse := fun _ => .object {}
  relevance := .ok (some "YES")
  cleanup := .ok none
  preference := .ok (some "SUMMARY")
  normalize := fun b => .ok (some b)
  summarize := .ok (some "A summary.")
  intent := .ok (some "reply")
  explain := .ok (some "An explanation.")
  combined := .ok (some "A combined explanation.")
  streamChunks := .ok [some "chunk"]
  embed := fun _ => .ok [1, 2]
  queryRaw := fun _ _ _ => .ok (some [matchJohn])
  fetchRaw := fun _ _ => .ok none
  rerankRaw := fun _ _ => .ok ⟨[⟨0, 7⟩]⟩
  upsertRaw := fun _ _ => .ok ()
  now := "2024-01-01T00:00:00.000Z"

/-- A request body with no query field. -/
def bodyNoQuery : ReqBody := { query := none }

/-- A request body asking about love. -/
def bodyLove : ReqBody := { query := some "tell me about love" }

/-! ### C4: missing query means 400 and no external calls -/

/-- C4: for every POST request to an /api route whose JSON body lacks a query
field (query absent or falsy), the handler returns an HTTP 400 response with
an error message and performs no search or LLM call (its trace of external
calls is empty).  This holds for all five route handlers. -/
theorem C4_missing_query_400 (cfg : Config) (env : Env) (b : ReqBody)
    (h : jsFalsyStr b.query = true) :
    searchRoute cfg env (.ok b) = (.err 400 "Query is required", []) ∧
    rerankRoute cfg env (.ok b) = (.err 400 "Query is required", []) ∧
    analyzePOST cfg env (.ok b) = (.err 400 "Query is required" none, []) ∧
    streamPOST cfg env (.ok b) = (.err 400 "Query is required", []) ∧
    parseQueryRoute env (.ok b) = (.err 400 "Query is required", []) := by
  refine ⟨?_, ?_, ?_, ?_, ?_⟩
  · simp [searchRoute, searchPOST, searchInner, h, mapSeq, pure_eq_W]
  · simp [rerankRoute, rerankPOST, rerankInner, h, mapSeq, pure_eq_W]
  · simp [analyzePOST, analyzeInner, h, pure_eq_WT]
  · simp [streamPOST, h]
  · simp [parseQueryRoute, parseQueryPOST, parseQueryInner, h, mapSeq, pure_eq_W]

/-- Witness for C4 at the concrete body `{}` (no query). -/
theorem C4_missing_query_400_witness :
    searchRoute cfgT envA (.ok bodyNoQuery) = (.err 400 "Query is required", []) ∧
    rerankRoute cfgT envA (.ok bodyNoQuery) = (.err 400 "Query is required", []) ∧
    analyzePOST cfgT envA (.ok bodyNoQuery) = (.err 400 "Query is required" none, []) ∧
    streamPOST cfgT envA (.ok bodyNoQuery) = (.err 400 "Query is required", []) ∧
    parseQueryRoute envA (.ok bodyNoQuery) = (.err 400 "Query is required", []) :=
  C4_missing_query_400 cfgT envA bodyNoQuery rfl

/-! ### C5: the top-level catch turns every unhandled error into a 500 -/

/-- An environment in which the embedding service throws. -/
def envEmbedFail : Env := { envA with embed := fun _ => .error (.exn "embedding failure") }

/-- An environment in which the intent-parsing LLM call throws. -/
def envIntentFail : Env := { envA with intent := .error (.exn "llm down") }

/-- C5: for every request, any error not handled by an inner try/catch is
caught by the handler's top-level catch and produces a generic HTTP 500
response (the analyze route's 500 additionally carries the error message).
This covers both errors thrown while parsing the request body and errors
escaping the handler body, for every route.  No unhandled exception escapes a
route handler: each handler is a total function into its response type. -/
theorem C5_top_level_catch_500 :
    (∀ cfg env b e tr, searchInner cfg env b = (.error e, tr) →
      searchPOST cfg env (.ok b) = (.err 500 "Internal server error", tr)) ∧
    (∀ cfg env e, searchPOST cfg env (.error e) = (.err 500 "Internal server error", [])) ∧
    (∀ cfg env b e tr, rerankInner cfg env b = (.error e, tr) →
      rerankPOST cfg env (.ok b) = (.err 500 "Internal server error", tr)) ∧
    (∀ cfg env e, rerankPOST cfg env (.error e) = (.err 500 "Internal server error", [])) ∧
    (∀ cfg env b e tr, analyzeInner cfg env b = (.error e, tr) →
      analyzePOST cfg env (.ok b) = (.err 500 "Internal server error" (some (errMessage e)), tr)) ∧
    (∀ cfg env e, analyzePOST cfg env (.error e) =
      (.err 500 "Internal server error" (some (errMessage e)), [])) ∧
    (∀ env b e tr, parseQueryInner env b = (.error e, tr) →
      parseQueryPOST env (.ok b) = (.err 500 "Internal server error", tr)) ∧
    (∀ env e, parseQueryPOST env (.error e) = (.err 500 "Internal server error", [])) ∧
    (∀ cfg env e, streamPOST cfg env (.error e) = (.err 500 "Internal server error", [])) := by
  refine ⟨?_, ?_, ?_, ?_, ?_, ?_, ?_, ?_, ?_⟩
  · intro cfg env b e tr h; simp [searchPOST, h]
  · intro cfg env e; simp [searchPOST]
  · intro cfg env b e tr h; simp [rerankPOST, h]
  · intro cfg env e; simp [rerankPOST]
  · intro cfg env b e tr h; simp [analyzePOST, h]
  · intro cfg env e; simp [analyzePOST]
  · intro env b e tr h; simp [parseQueryPOST, h]
  · intro env e; simp [parseQueryPOST]
  · intro cfg env e; simp [streamPOST]

/-- Witness for C5: a thrown embedding failure in the search route and a
thrown body-parse failure in the rerank route both surface as the generic
500. -/
theorem C5_top_level_catch_500_witness :
    searchPOST cfgT envEmbedFail (.ok bodyLove) =
      (.err 500 "Internal server error",
       [.llm .relevance, .llm .cleanup, .llm .preference,
        .embedText "tell me about love"]) ∧
    rerankPOST cfgT envA (.error (.exn "bad json")) =
      (.err 500 "Internal server error", []) :=
  ⟨C5_top_level_catch_500.1 cfgT envEmbedFail bodyLove (.exn "embedding failure")
      [.llm .relevance, .llm .cleanup, .llm .preference, .embedText "tell me about love"] rfl,
   C5_top_level_catch_500.2.2.2.1 cfgT envA (.exn "bad json")⟩

/-! ### C2: which external calls fall back to defaults (corrected) -/

/-- An environment in which the book-name normalizer LLM call throws. -/
def envNormFail : Env := { envA with normalize := fun _ => .error (.exn "norm down") }

/-- Counterexample to C2 as stated: the embedding-creation call is an external
service call made while handling a search request, but its failure is *not*
caught by a surrounding try/catch with a safe default — the request aborts
with the generic 500 instead of continuing. -/
theorem C2_counterexample :
    envEmbedFail.embed "tell me about love" = .error (.exn "embedding failure") ∧
    searchPOST cfgT envEmbedFail (.ok bodyLove) =
      (.err 500 "Internal server error",
       [.llm .relevance, .llm .cleanup, .llm .preference,
        .embedText "tell me about love"]) := by
  exact ⟨rfl, rfl⟩

/-- C2 (amended): the prompt-based LLM calls (relevance check, query cleanup,
preference analysis, book-name normalization, summary generation) are each
wrapped in an inner try/catch that substitutes a safe default and continues;
but failures of embedding creation, vector query, and exact-ID fetch are not
caught by any inner handler — they propagate to the top-level catch, which
aborts the request with the generic 500. -/
theorem C2_fallbacks_amended :
    (∀ e, relevanceCheckW (.error e) = (.ok true, [.llm .relevance])) ∧
    (∀ e q, cleanupW (.error e) q = (.ok q, [.llm .cleanup])) ∧
    (∀ e, preferenceW (.error e) = (.ok ⟨true, "summary"⟩, [.llm .preference])) ∧
    (∀ env b e, env.normalize b = .error e →
      normalizeBookName env b = (.ok (some b), [.llm (.normalize b)])) ∧
    (∀ e v, summarizeExactW (.error e) v = (.ok v, [.llm .summarize])) ∧
    (∀ e q v, summarizeVectorW (.error e) q v =
      (.ok ("Here are some relevant Bible verses about \"" ++ q ++ "\":\n\n" ++ v),
       [.llm .summarize])) ∧
    (∀ cfg env b e tr, searchInner cfg env b = (.error e, tr) →
      searchPOST cfg env (.ok b) = (.err 500 "Internal server error", tr)) ∧
    (∀ cfg env b e tr, rerankInner cfg env b = (.error e, tr) →
      rerankPOST cfg env (.ok b) = (.err 500 "Internal server error", tr)) := by
  refine ⟨fun e => rfl, fun e q => rfl, fun e => rfl, ?_, fun e v => rfl, fun e q v => rfl,
    ?_, ?_⟩
  · intro env b e h
    simp [normalizeBookName, bind_eq_wBind, callW, h, wBind_error, tryCatchW_errCase, pure_eq_W]
  · intro cfg env b e tr h; simp [searchPOST, h]
  · intro cfg env b e tr h; simp [rerankPOST, h]

/-- Witness for C2 (amended) at concrete environments: a failing normalizer
falls back to the original book name, and a failing embedding call aborts the
search request with the 500. -/
theorem C2_fallbacks_amended_witness :
    normalizeBookName envNormFail "Jon" = (.ok (some "Jon"), [.llm (.normalize "Jon")]) ∧
    searchPOST cfgT envEmbedFail (.ok bodyLove) =
      (.err 500 "Internal server error",
       [.llm .relevance, .llm .cleanup, .llm .preference,
        .embedText "tell me about love"]) :=
  ⟨C2_fallbacks_amended.2.2.2.1 envNormFail "Jon" (.exn "norm down") rfl,
   C2_fallbacks_amended.2.2.2.2.2.2.1 cfgT envEmbedFail bodyLove (.exn "embedding failure")
     [.llm .relevance, .llm .cleanup, .llm .preference, .embedText "tell me about love"] rfl⟩

/-! ### C3: defaults of the five prompt-based operations (corrected) -/

/-- An environment in which the intent LLM replies with unparseable text. -/
def envParseFail : Env :=
  { envA with intent := .ok (some "not json"), jsonParse := fun _ => .throwing }

/-- Counterexample to C3 as stated: when the intent-parsing LLM call throws,
the parse-query handler does not yield the default parse result — the call is
outside the inner try/catch, so the route answers with the generic 500. -/
theorem C3_counterexample :
    envIntentFail.intent = .error (.exn "llm down") ∧
    parseQueryPOST envIntentFail (.ok bodyLove) =
      (.err 500 "Internal server error", [.llm .intentParse]) := by
  exact ⟨rfl, rfl⟩

/-- C3 (amended): the relevance check, query cleanup, book-name normalization
and response-preference detection yield their defaults when their LLM call
throws, and intent parsing yields its default result when the reply fails
JSON parsing; but a *throw* of the intent-parsing LLM call is not caught by
any inner handler, and the parse-query route returns the generic 500. -/
theorem C3_operation_defaults_amended :
    (∀ e, relevanceCheckW (.error e) = (.ok true, [.llm .relevance])) ∧
    (∀ e q, cleanupW (.error e) q = (.ok q, [.llm .cleanup])) ∧
    (∀ env b e, env.normalize b = .error e →
      normalizeBookName env b = (.ok (some b), [.llm (.normalize b)])) ∧
    (∀ e, preferenceW (.error e) = (.ok ⟨true, "summary"⟩, [.llm .preference])) ∧
    (∀ env b q s, b.query = some q → q ≠ "" → env.intent = .ok (some s) →
      env.jsonParse (jsOrStr (some (jsTrim s)) emptyObjStr) = .throwing →
      parseQueryPOST env (.ok b) = (.ok (.str q) 5 false (.arr []), [.llm .intentParse])) ∧
    (∀ env b e, env.intent = .error e → jsFalsyStr b.query = false →
      parseQueryPOST env (.ok b) = (.err 500 "Internal server error", [.llm .intentParse])) := by
  refine ⟨fun e => rfl, fun e q => rfl, ?_, fun e => rfl, ?_, ?_⟩
  · intro env b e h
    simp [normalizeBookName, bind_eq_wBind, callW, h, wBind_error, tryCatchW_errCase, pure_eq_W]
  · intro env b q s hq hne hint hparse
    have hf2 : jsFalsyStr (some q) = false := by simp [jsFalsyStr, hne]
    simp [parseQueryPOST, parseQueryInner, hf2, hq, hint, bind_eq_wBind, callW, wBind_ok,
      hparse, pure_eq_W]
  · intro env b e hint hfalsy
    simp [parseQueryPOST, parseQueryInner, hfalsy, hint, bind_eq_wBind, callW, wBind_error]

/-- Witness for C3 (amended): an unparseable intent reply yields the default
parse result; a thrown intent call yields the 500. -/
theorem C3_operation_defaults_amended_witness :
    parseQueryPOST envParseFail (.ok bodyLove) =
      (.ok (.str "tell me about love") 5 false (.arr []), [.llm .intentParse]) ∧
    parseQueryPOST envIntentFail (.ok bodyLove) =
      (.err 500 "Internal server error", [.llm .intentParse]) :=
  ⟨C3_operation_defaults_amended.2.2.2.2.1 envParseFail bodyLove "tell me about love"
      "not json" rfl (by decide) rfl rfl,
   C3_operation_defaults_amended.2.2.2.2.2 envIntentFail bodyLove (.exn "llm down") rfl rfl⟩

/-! ### C1: the verse identifier conventions (corrected) -/

/-- Whether an identifier string begins with a testament tag ("OT-" or
"NT-"). -/
def hasTestamentTag (s : String) : Bool :=
  decide (s.toList.take 3 = ['O', 'T', '-']) || decide (s.toList.take 3 = ['N', 'T', '-'])

/-- Counterexample to C1 as stated: the exact KJV fetch of the /api/search
route builds `John-3-16` for John 3:16 — no testament tag at all — and the
original-language exact fetch lowercases the book, so it differs from the
identifier the original-language batch script created for the same verse. -/
theorem C1_counterexample :
    searchFetchId "John" 3 16 = "John-3-16" ∧
    hasTestamentTag (searchFetchId "John" 3 16) = false ∧
    originalFetchId "OT" "Genesis" 1 1 = "OT-genesis-1-1" ∧
    originalUploadId "OT" "Genesis" 1 1 = "OT-Genesis-1-1" ∧
    originalFetchId "OT" "Genesis" 1 1 ≠ originalUploadId "OT" "Genesis" 1 1 := by
  refine ⟨by decide, by decide, by decide, by decide, by decide⟩

/-- C1 (amended): only the original-language exact fetch follows the
`{testament}-{book}-{chapter}-{verse}` convention (with the book lowercased
and whitespace runs dashed); the exact KJV fetch of the search route uses
`{book}-{chapter}-{verse}`, which matches the identifiers the KJV batch
script creates, and the original-language fetch identifier matches the
batch-created identifier exactly when the book name is already lowercase. -/
theorem C1_id_conventions_amended :
    (∀ b c v, searchFetchId b c v = kjvUploadId b c v) ∧
    (∀ ts b c v, originalFetchId (testamentStr ts) b c v =
      testamentStr ts ++ "-" ++
        (jsReplaceSpaces (toLowerString b) ++ "-" ++ toString c ++ "-" ++ toString v)) ∧
    (∀ t b c v, originalFetchIdOpt t b (some c) (some v) = originalFetchId t b c v) ∧
    (∀ t b c v, toLowerString b = b → originalFetchId t b c v = originalUploadId t b c v) := by
  refine ⟨fun b c v => rfl, ?_, fun t b c v => rfl, ?_⟩
  · intro ts b c v
    simp [originalFetchId, String.append_assoc]
  · intro t b c v h
    simp [originalFetchId, originalUploadId, h]

/-- Witness for C1 (amended) at John 3:16 and a lowercase book name. -/
theorem C1_id_conventions_amended_witness :
    searchFetchId "John" 3 16 = kjvUploadId "John" 3 16 ∧
    originalFetchId (testamentStr .NT) "John" 3 16 =
      testamentStr .NT ++ "-" ++
        (jsReplaceSpaces (toLowerString "John") ++ "-" ++ toString (3 : Int) ++ "-" ++
          toString (16 : Int)) ∧
    originalFetchId "OT" "malachi" 4 6 = originalUploadId "OT" "malachi" 4 6 :=
  ⟨C1_id_conventions_amended.1 "John" 3 16,
   C1_id_conventions_amended.2.1 .NT "John" 3 16,
   C1_id_conventions_amended.2.2.2 "OT" "malachi" 4 6 (by decide)⟩

/-! ### C9: testament classification and index routing -/

theorem head_trace_callW_bind {α β : Type} (c : RCall) (r : Except JsErr α) (f : α → W β) :
    ((callW c r >>= f).2).head? = some c := by
  rw [bind_eq_wBind]
  cases r with
  | ok a =>
    show (wBind ((Except.ok a : Except JsErr α), [c]) f).2.head? = some c
    rw [wBind_ok]
    simp
  | error e => rfl

theorem head_trace_callW_wBind {α β : Type} (c : RCall) (r : Except JsErr α) (f : α → W β) :
    ((wBind (callW c r) f).2).head? = some c := by
  rw [← bind_eq_wBind]
  exact head_trace_callW_bind c r f

theorem head_trace_tryCatch {α : Type} (x : W α) (hnd : JsErr → W α) (c : RCall)
    (h : x.2.head? = some c) : (tryCatchW x hnd).2.head? = some c := by
  rcases x with ⟨xr, xtr⟩
  cases xr with
  | ok a => exact h
  | error e => rw [tryCatchW_errCase]; simpa [List.head?_append] using Or.inl h

/-- C9: `determineTestament` returns OT exactly when the lowercased book name
is one of the 39 entries of `OLD_TESTAMENT_BOOKS`, and NT for every other
string; consequently `findOriginalLanguageVerse` addresses the Hebrew index
precisely for those book names and the Greek index for all others — its first
external call is the exact-ID fetch against the index selected by the
testament.  "Song of Songs" is absent from the list and is routed to the
Greek index. -/
theorem C9_testament_classification :
    (∀ b, determineTestament b = .OT ↔ toLowerString b ∈ OLD_TESTAMENT_BOOKS) ∧
    OLD_TESTAMENT_BOOKS.length = 39 ∧
    (∀ b, determineTestament b = .NT ↔ toLowerString b ∉ OLD_TESTAMENT_BOOKS) ∧
    (∀ b, originalLanguageFor b = "hebrew" ↔ determineTestament b = .OT) ∧
    (∀ b, originalLanguageFor b = "greek" ↔ determineTestament b = .NT) ∧
    determineTestament "Song of Songs" = .NT ∧
    originalLanguageFor "Song of Songs" = "greek" ∧
    (∀ cfg env b c v hx gx, cfg.hebrewIndex = some hx → cfg.greekIndex = some gx →
      ((findOriginalLanguageVerse cfg env (some b) c v).2).head? =
        some (.pineFetch (if determineTestament b = .OT then hx else gx)
          (originalFetchIdOpt (testamentStr (determineTestament b)) b c v))) := by
  refine ⟨?_, by decide, ?_, ?_, ?_, by decide, by decide, ?_⟩
  · intro b
    by_cases h : toLowerString b ∈ OLD_TESTAMENT_BOOKS <;> simp [determineTestament, h]
  · intro b
    by_cases h : toLowerString b ∈ OLD_TESTAMENT_BOOKS <;> simp [determineTestament, h]
  · intro b
    by_cases h : toLowerString b ∈ OLD_TESTAMENT_BOOKS <;>
      simp [originalLanguageFor, determineTestament, h]
  · intro b
    by_cases h : toLowerString b ∈ OLD_TESTAMENT_BOOKS <;>
      simp [originalLanguageFor, determineTestament, h]
  · intro cfg env b c v hx gx hh hg
    apply head_trace_tryCatch
    simp only [bind_eq_wBind, liftErr, findOriginalLanguageVerse]
    rw [wBind_ok]
    simp only [List.nil_append]
    by_cases hot : determineTestament b = Testament.OT
    · simp only [hot, if_true, hh, fetchVectorById]
      exact head_trace_callW_wBind _ _ _
    · simp only [if_neg hot, hg, fetchVectorById]
      exact head_trace_callW_wBind _ _ _

/-- Witness for C9 at "Genesis" (Hebrew index) and "Song of Songs" (Greek
index, because the list stores "song of solomon" instead). -/
theorem C9_testament_classification_witness :
    (determineTestament "Genesis" = .OT ↔ toLowerString "Genesis" ∈ OLD_TESTAMENT_BOOKS) ∧
    ((findOriginalLanguageVerse cfgT envA (some "Genesis") (some 1) (some 1)).2).head? =
      some (.pineFetch (if determineTestament "Genesis" = .OT then "hebrew-index"
        else "greek-index")
        (originalFetchIdOpt (testamentStr (determineTestament "Genesis")) "Genesis"
          (some 1) (some 1))) ∧
    ((findOriginalLanguageVerse cfgT envA (some "Song of Songs") (some 1) (some 1)).2).head? =
      some (.pineFetch (if determineTestament "Song of Songs" = .OT then "hebrew-index"
        else "greek-index")
        (originalFetchIdOpt (testamentStr (determineTestament "Song of Songs")) "Song of Songs"
          (some 1) (some 1))) :=
  ⟨C9_testament_classification.1 "Genesis",
   C9_testament_classification.2.2.2.2.2.2.2 cfgT envA "Genesis" (some 1) (some 1)
     "hebrew-index" "greek-index" rfl rfl,
   C9_testament_classification.2.2.2.2.2.2.2 cfgT envA "Song of Songs" (some 1) (some 1)
     "hebrew-index" "greek-index" rfl rfl⟩

/-! ### C8: the parse-query route's topK clamping and parse-failure default -/

/-- C8: for every reply the intent-parsing route receives, the topK value in
its JSON response is an integer between 1 and 50 inclusive; a missing or
non-numeric topK field becomes 5; and when the reply fails JSON parsing the
response is exactly `{cleanedQuery: original query, topK: 5,
hasSpecificVerse: false, specificVerses: []}`. -/
theorem C8_parse_topk_clamped :
    (∀ field, 1 ≤ clampTopK field ∧ clampTopK field ≤ 50) ∧
    (∀ field, (field = none ∨ ∃ v, field = some v ∧ parseIntJs v = none) →
      clampTopK field = 5) ∧
    (∀ env b cq k hsv sv tr, parseQueryPOST env (.ok b) = (.ok cq k hsv sv, tr) →
      1 ≤ k ∧ k ≤ 50) ∧
    (∀ env b q s, b.query = some q → q ≠ "" → env.intent = .ok (some s) →
      env.jsonParse (jsOrStr (some (jsTrim s)) emptyObjStr) = .throwing →
      parseQueryPOST env (.ok b) = (.ok (.str q) 5 false (.arr []), [.llm .intentParse])) := by
  have hrange : ∀ field, 1 ≤ clampTopK field ∧ clampTopK field ≤ 50 := by
    intro field
    exact ⟨le_min (le_max_right _ _) (by norm_num), min_le_right _ _⟩
  refine ⟨hrange, ?_, ?_, ?_⟩
  · intro field h
    rcases h with h | ⟨v, hv, hp⟩
    · simp [clampTopK, h]
    · simp [clampTopK, hv, hp]
  · intro env b cq k hsv sv tr h
    by_cases hf : jsFalsyStr b.query = true
    · simp [parseQueryPOST, parseQueryInner, hf] at h
    · have hf' : jsFalsyStr b.query = false := by
        simpa using hf
      cases hint : env.intent with
      | error e =>
        simp [parseQueryPOST, parseQueryInner, hf', hint, bind_eq_wBind, callW, wBind_error]
          at h
      | ok content =>
        cases hp : env.jsonParse (jsOrStr (content.map jsTrim) emptyObjStr) with
        | throwing =>
          simp [parseQueryPOST, parseQueryInner, hf', hint, bind_eq_wBind, callW, wBind_ok,
            hp, pure_eq_W] at h
          obtain ⟨⟨_, hk, _, _⟩, _⟩ := h
          omega
        | object r =>
          simp [parseQueryPOST, parseQueryInner, hf', hint, bind_eq_wBind, callW, wBind_ok,
            hp, pure_eq_W] at h
          obtain ⟨⟨_, hk, _, _⟩, _⟩ := h
          have := hrange r.topK
          omega
  · intro env b q s hq hne hint hparse
    have hf2 : jsFalsyStr (some q) = false := by simp [jsFalsyStr, hne]
    simp [parseQueryPOST, parseQueryInner, hf2, hq, hint, bind_eq_wBind, callW, wBind_ok,
      hparse, pure_eq_W]

/-- Witness for C8 at the concrete environment `envA` (reply parsed to an
empty object: all fields defaulted) and `envParseFail` (unparseable reply). -/
theorem C8_parse_topk_clamped_witness :
    (1 ≤ clampTopK (some (.str "12")) ∧ clampTopK (some (.str "12")) ≤ 50) ∧
    clampTopK (some (.bool true)) = 5 ∧
    (1 ≤ (5 : Int) ∧ (5 : Int) ≤ 50) ∧
    parseQueryPOST envParseFail (.ok bodyLove) =
      (.ok (.str "tell me about love") 5 false (.arr []), [.llm .intentParse]) :=
  ⟨C8_parse_topk_clamped.1 (some (.str "12")),
   C8_parse_topk_clamped.2.1 (some (.bool true)) (Or.inr ⟨.bool true, rfl, rfl⟩),
   C8_parse_topk_clamped.2.2.1 envA bodyLove (.str "tell me about love") 5 false (.arr [])
     [.llm .intentParse] rfl,
   C8_parse_topk_clamped.2.2.2 envParseFail bodyLove "tell me about love" "not json" rfl
     (by decide) rfl rfl⟩

/-! ### C6: request handlers never write to the vector store -/

theorem WT_readonly_bind {α β : Type} {x : WT α} {f : α → WT β}
    (hx : traceReadOnly x.2 = true) (hf : ∀ a, traceReadOnly (f a).2 = true) :
    traceReadOnly ((x >>= f).2) = true := by
  rw [bind_eq_wtBind]
  rcases x with ⟨xr, xtr⟩
  cases xr with
  | error e => exact hx
  | ok a =>
    rw [wtBind_ok]
    simp [traceReadOnly_append, hx, hf a]

theorem liftW_readonly {α : Type} (x : W α) : traceReadOnly (liftW x).2 = true := by
  rcases x with ⟨r, tr⟩
  exact traceReadOnly_mapSeq tr

theorem par_readonly (bs : List (List RCall)) :
    traceReadOnly [TraceNode.par bs] = true := rfl

theorem analyzeSpecificPath_readonly (cfg : Config) (env : Env) (q : String)
    (svs : List SpecVerse) : traceReadOnly (analyzeSpecificPath cfg env q svs).2 = true := by
  unfold analyzeSpecificPath
  apply WT_readonly_bind
  · exact par_readonly _
  · intro verseResults
    dsimp only
    split
    · apply WT_readonly_bind
      · rfl
      · intro _
        rfl
    · apply WT_readonly_bind
      · exact liftW_readonly _
      · intro _
        rfl

theorem analyzeInner_readonly (cfg : Config) (env : Env) (b : ReqBody) :
    traceReadOnly (analyzeInner cfg env b).2 = true := by
  unfold analyzeInner
  split
  · rfl
  · dsimp only
    apply WT_readonly_bind (liftW_readonly _)
    intro isRel
    split
    · rfl
    · split
      · split
        · exact WT_readonly_bind (analyzeSpecificPath_readonly _ _ _ _) (fun _ => rfl)
        · apply WT_readonly_bind (liftW_readonly _)
          intro ar
          exact WT_readonly_bind rfl (fun _ => rfl)
      · apply WT_readonly_bind (liftW_readonly _)
        intro ar
        exact WT_readonly_bind rfl (fun _ => rfl)

theorem analyzePOST_readonly (cfg : Config) (env : Env) (body : Except JsErr ReqBody) :
    traceReadOnly (analyzePOST cfg env body).2 = true := by
  cases body with
  | error e => rfl
  | ok b =>
    have h := analyzeInner_readonly cfg env b
    rcases hinner : analyzeInner cfg env b with ⟨r, tr⟩
    rw [hinner] at h
    cases r with
    | ok a => simpa [analyzePOST, hinner] using h
    | error e => simpa [analyzePOST, hinner] using h

theorem streamGather_readonly (cfg : Config) (env : Env) (q : String) (topK : Int)
    (sv : Option (List SpecVerse)) : traceReadOnly (streamGather cfg env q topK sv).2 = true := by
  unfold streamGather
  split
  · split
    · dsimp only
      split
      · exact par_readonly _
      · exact par_readonly _
    · split
      · exact traceReadOnly_mapSeq _
      · exact traceReadOnly_mapSeq _
  · split
    · exact traceReadOnly_mapSeq _
    · exact traceReadOnly_mapSeq _

theorem streamBody_readonly (cfg : Config) (env : Env) (q : String) (topK : Int)
    (sv : Option (List SpecVerse)) : traceReadOnly (streamBody cfg env q topK sv).2 = true := by
  unfold streamBody
  have h := streamGather_readonly cfg env q topK sv
  rcases hg : streamGather cfg env q topK sv with ⟨⟨r, evs⟩, tr⟩
  rw [hg] at h
  cases r with
  | error e => simpa [hg] using h
  | ok ar =>
    have h' : traceReadOnly tr = true := h
    simp only [hg]
    split
    · split
      · rw [traceReadOnly_append, h']
        decide
      · rw [traceReadOnly_append, h']
        decide
    · exact h' 

theorem streamPOST_readonly (cfg : Config) (env : Env) (body : Except JsErr ReqBody) :
    traceReadOnly (streamPOST cfg env body).2 = true := by
  cases body with
  | error e => rfl
  | ok b =>
    unfold streamPOST
    dsimp only
    split
    · rfl
    · rcases hrel : relevanceCheckW env.relevance with ⟨r, tr0⟩
      have hsb := streamBody_readonly cfg env (b.query.getD "") (b.topK.getD 5) b.specificVerses
      cases r with
      | error e => simp [hrel, traceReadOnly_append, traceReadOnly_mapSeq, hsb]
      | ok v =>
        cases v with
        | false => simp [hrel, traceReadOnly_mapSeq]
        | true => simp [hrel, traceReadOnly_append, traceReadOnly_mapSeq, hsb]

/-- A record as the batch scripts upload. -/
def recGen : VectorRecord := { id := "OT-Genesis-1-1", values := [1] }

/-- A concrete empty store. -/
def storeT : Store := fun _ => []

/-- C6: handling an API request never modifies the stored verse and vector
records: every route handler's trace of external calls is read-only, a
read-only trace leaves any store unchanged, and the one write operation
(`upsertVectors`, used only by the batch scripts) produces a trace that is
not read-only. -/
theorem C6_requests_readonly :
    (∀ cfg env body, traceReadOnly (searchRoute cfg env body).2 = true) ∧
    (∀ cfg env body, traceReadOnly (rerankRoute cfg env body).2 = true) ∧
    (∀ cfg env body, traceReadOnly (analyzePOST cfg env body).2 = true) ∧
    (∀ cfg env body, traceReadOnly (streamPOST cfg env body).2 = true) ∧
    (∀ env body, traceReadOnly (parseQueryRoute env body).2 = true) ∧
    (∀ tr s, traceReadOnly tr = true → applyTrace s tr = s) ∧
    traceReadOnly (upsertVectors envA "kjv-index" [recGen]).2 = false := by
  refine ⟨?_, ?_, analyzePOST_readonly, streamPOST_readonly, ?_, ?_, ?_⟩
  · intro cfg env body
    rcases hsp : searchPOST cfg env body with ⟨r, tr⟩
    simp [searchRoute, hsp, traceReadOnly_mapSeq]
  · intro cfg env body
    rcases hsp : rerankPOST cfg env body with ⟨r, tr⟩
    simp [rerankRoute, hsp, traceReadOnly_mapSeq]
  · intro env body
    rcases hsp : parseQueryPOST env body with ⟨r, tr⟩
    simp [parseQueryRoute, hsp, traceReadOnly_mapSeq]
  · exact fun tr s h => applyTrace_readOnly tr s h
  · decide

/-- Witness for C6: a concrete search request's trace is read-only and leaves
the store unchanged. -/
theorem C6_requests_readonly_witness :
    traceReadOnly (searchRoute cfgT envA (.ok bodyLove)).2 = true ∧
    applyTrace storeT (searchRoute cfgT envA (.ok bodyLove)).2 = storeT :=
  ⟨C6_requests_readonly.1 cfgT envA (.ok bodyLove),
   C6_requests_readonly.2.2.2.2.2.1 (searchRoute cfgT envA (.ok bodyLove)).2 storeT
     (C6_requests_readonly.1 cfgT envA (.ok bodyLove))⟩

/-! ### C7: at most one Promise.all per request -/

theorem WT_parCount_bind {α β : Type} {x : WT α} {f : α → WT β} {m n : Nat}
    (hx : parCount x.2 ≤ m) (hf : ∀ a, parCount (f a).2 ≤ n) :
    parCount ((x >>= f).2) ≤ m + n := by
  rw [bind_eq_wtBind]
  rcases x with ⟨xr, xtr⟩
  cases xr with
  | error e => exact le_trans hx (Nat.le_add_right _ _)
  | ok a =>
    rw [wtBind_ok]
    simp only [parCount_append]
    exact Nat.add_le_add hx (hf a)

theorem liftW_parCount {α : Type} (x : W α) : parCount (liftW x).2 = 0 := by
  rcases x with ⟨r, tr⟩
  exact parCount_mapSeq tr

theorem analyzeSpecificPath_parCount (cfg : Config) (env : Env) (q : String)
    (svs : List SpecVerse) : parCount (analyzeSpecificPath cfg env q svs).2 ≤ 1 := by
  unfold analyzeSpecificPath
  dsimp only
  refine le_trans (WT_parCount_bind (m := 1) (n := 0) (by simp [parCount, isParNode]) ?_)
    (by norm_num)
  intro verseResults
  dsimp only
  split
  · exact WT_parCount_bind (m := 0) (n := 0) (by simp [parCount, pure_eq_WT])
      (fun _ => by simp [parCount, pure_eq_WT])
  · exact WT_parCount_bind (m := 0) (n := 0) (by simp [liftW_parCount])
      (fun _ => by simp [parCount, pure_eq_WT])

theorem analyzeInner_parCount (cfg : Config) (env : Env) (b : ReqBody) :
    parCount (analyzeInner cfg env b).2 ≤ 1 := by
  unfold analyzeInner
  split
  · simp [parCount, pure_eq_WT]
  · dsimp only
    refine le_trans (WT_parCount_bind (m := 0) (n := 1) (by simp [liftW_parCount]) ?_)
      (by norm_num)
    intro isRel
    split
    · simp [parCount, pure_eq_WT]
    · split
      · split
        · refine le_trans (WT_parCount_bind (m := 1) (n := 0)
            (analyzeSpecificPath_parCount _ _ _ _) ?_) (by norm_num)
          intro _
          simp [parCount, pure_eq_WT]
        · refine le_trans (WT_parCount_bind (m := 0) (n := 0)
            (by simp [liftW_parCount]) ?_) (by norm_num)
          intro ar
          refine le_trans (WT_parCount_bind (m := 0) (n := 0)
            (by simp [parCount, pure_eq_WT]) ?_) (by norm_num)
          intro _
          simp [parCount, pure_eq_WT]
      · refine le_trans (WT_parCount_bind (m := 0) (n := 0)
          (by simp [liftW_parCount]) ?_) (by norm_num)
        intro ar
        refine le_trans (WT_parCount_bind (m := 0) (n := 0)
          (by simp [parCount, pure_eq_WT]) ?_) (by norm_num)
        intro _
        simp [parCount, pure_eq_WT]

theorem analyzePOST_parCount (cfg : Config) (env : Env) (body : Except JsErr ReqBody) :
    parCount (analyzePOST cfg env body).2 ≤ 1 := by
  cases body with
  | error e => simp [analyzePOST, parCount]
  | ok b =>
    have h := analyzeInner_parCount cfg env b
    rcases hinner : analyzeInner cfg env b with ⟨r, tr⟩
    rw [hinner] at h
    cases r with
    | ok a => simpa [analyzePOST, hinner] using h
    | error e => simpa [analyzePOST, hinner] using h

theorem analyzeInner_parCount_zero (cfg : Config) (env : Env) (b : ReqBody)
    (h : b.specificVerses = none ∨ b.specificVerses = some ([] : List SpecVerse)) :
    parCount (analyzeInner cfg env b).2 = 0 := by
  refine Nat.le_zero.mp ?_
  unfold analyzeInner
  split
  · simp [parCount, pure_eq_WT]
  · dsimp only
    refine le_trans (WT_parCount_bind (m := 0) (n := 0) (by simp [liftW_parCount]) ?_)
      (by norm_num)
    intro isRel
    split
    · simp [parCount, pure_eq_WT]
    · rcases h with h | h
      · rw [h]
        dsimp only
        refine WT_parCount_bind (m := 0) (n := 0) (by simp [liftW_parCount]) ?_
        intro ar
        exact WT_parCount_bind (m := 0) (n := 0) (by simp [parCount, pure_eq_WT])
          (fun _ => by simp [parCount, pure_eq_WT])
      · rw [h]
        dsimp only
        rw [if_neg (by norm_num)]
        refine WT_parCount_bind (m := 0) (n := 0) (by simp [liftW_parCount]) ?_
        intro ar
        exact WT_parCount_bind (m := 0) (n := 0) (by simp [parCount, pure_eq_WT])
          (fun _ => by simp [parCount, pure_eq_WT])

theorem analyzePOST_parCount_zero (cfg : Config) (env : Env) (b : ReqBody)
    (h : b.specificVerses = none ∨ b.specificVerses = some ([] : List SpecVerse)) :
    parCount (analyzePOST cfg env (.ok b)).2 = 0 := by
  have hz := analyzeInner_parCount_zero cfg env b h
  rcases hinner : analyzeInner cfg env b with ⟨r, tr⟩
  rw [hinner] at hz
  cases r with
  | ok a => simpa [analyzePOST, hinner] using hz
  | error e => simpa [analyzePOST, hinner] using hz

theorem streamGather_parCount (cfg : Config) (env : Env) (q : String) (topK : Int)
    (sv : Option (List SpecVerse)) : parCount (streamGather cfg env q topK sv).2 ≤ 1 := by
  unfold streamGather
  split
  · split
    · dsimp only
      split
      · simp [parCount, isParNode]
      · simp [parCount, isParNode]
    · split
      · simp [parCount_mapSeq]
      · simp [parCount_mapSeq]
  · split
    · simp [parCount_mapSeq]
    · simp [parCount_mapSeq]

theorem streamGather_parCount_zero (cfg : Config) (env : Env) (q : String) (topK : Int)
    (sv : Option (List SpecVerse)) (h : sv = none ∨ sv = some []) :
    parCount (streamGather cfg env q topK sv).2 = 0 := by
  rcases h with h | h
  · rw [h]
    unfold streamGather
    dsimp only
    split
    · simp [parCount_mapSeq]
    · simp [parCount_mapSeq]
  · rw [h]
    unfold streamGather
    dsimp only
    rw [if_neg (by norm_num)]
    split
    · simp [parCount_mapSeq]
    · simp [parCount_mapSeq]

theorem streamBody_parCount (cfg : Config) (env : Env) (q : String) (topK : Int)
    (sv : Option (List SpecVerse)) : parCount (streamBody cfg env q topK sv).2 ≤ 1 := by
  unfold streamBody
  have h := streamGather_parCount cfg env q topK sv
  rcases hg : streamGather cfg env q topK sv with ⟨⟨r, evs⟩, tr⟩
  rw [hg] at h
  have h' : parCount tr ≤ 1 := h
  cases r with
  | error e => simpa [hg] using h'
  | ok ar =>
    simp only [hg]
    split
    · split
      · rw [parCount_append]
        simpa [parCount, isParNode, seqR] using h'
      · rw [parCount_append]
        simpa [parCount, isParNode, seqR] using h'
    · exact h'

theorem streamBody_parCount_zero (cfg : Config) (env : Env) (q : String) (topK : Int)
    (sv : Option (List SpecVerse)) (h : sv = none ∨ sv = some []) :
    parCount (streamBody cfg env q topK sv).2 = 0 := by
  unfold streamBody
  have hz := streamGather_parCount_zero cfg env q topK sv h
  rcases hg : streamGather cfg env q topK sv with ⟨⟨r, evs⟩, tr⟩
  rw [hg] at hz
  have h' : parCount tr = 0 := hz
  cases r with
  | error e => simpa [hg] using h'
  | ok ar =>
    simp only [hg]
    split
    · split
      · rw [parCount_append]
        simpa [parCount, isParNode, seqR] using h'
      · rw [parCount_append]
        simpa [parCount, isParNode, seqR] using h'
    · exact h'

theorem streamPOST_parCount (cfg : Config) (env : Env) (body : Except JsErr ReqBody) :
    parCount (streamPOST cfg env body).2 ≤ 1 := by
  cases body with
  | error e => simp [streamPOST, parCount]
  | ok b =>
    unfold streamPOST
    dsimp only
    split
    · simp [parCount]
    · rcases hrel : relevanceCheckW env.relevance with ⟨r, tr0⟩
      have hsb := streamBody_parCount cfg env (b.query.getD "") (b.topK.getD 5) b.specificVerses
      cases r with
      | error e => simpa [hrel, parCount_append, parCount_mapSeq] using hsb
      | ok v =>
        cases v with
        | false => simp [hrel, parCount_mapSeq]
        | true => simpa [hrel, parCount_append, parCount_mapSeq] using hsb

theorem streamPOST_parCount_zero (cfg : Config) (env : Env) (b : ReqBody)
    (h : b.specificVerses = none ∨ b.specificVerses = some ([] : List SpecVerse)) :
    parCount (streamPOST cfg env (.ok b)).2 = 0 := by
  unfold streamPOST
  dsimp only
  split
  · simp [parCount]
  · rcases hrel : relevanceCheckW env.relevance with ⟨r, tr0⟩
    have hsb := streamBody_parCount_zero cfg env (b.query.getD "") (b.topK.getD 5)
      b.specificVerses h
    cases r with
    | error e => simpa [hrel, parCount_append, parCount_mapSeq] using hsb
    | ok v =>
      cases v with
      | false => simp [hrel, parCount_mapSeq]
      | true => simpa [hrel, parCount_append, parCount_mapSeq] using hsb

/-- C7: every request is a strictly sequential chain of awaited calls with at
most one `Promise.all`: the search, rerank and parse-query handlers perform no
fan-out at all; the analyze and stream handlers perform at most one fan-out,
and none when the request names no specific verses — the single fan-out is
the resolution of the explicitly-named verses. -/
theorem C7_at_most_one_fanout :
    (∀ cfg env body, parCount (searchRoute cfg env body).2 = 0) ∧
    (∀ cfg env body, parCount (rerankRoute cfg env body).2 = 0) ∧
    (∀ env body, parCount (parseQueryRoute env body).2 = 0) ∧
    (∀ cfg env body, parCount (analyzePOST cfg env body).2 ≤ 1) ∧
    (∀ cfg env body, parCount (streamPOST cfg env body).2 ≤ 1) ∧
    (∀ cfg env b, (b.specificVerses = none ∨ b.specificVerses = some []) →
      parCount (analyzePOST cfg env (.ok b)).2 = 0) ∧
    (∀ cfg env b, (b.specificVerses = none ∨ b.specificVerses = some []) →
      parCount (streamPOST cfg env (.ok b)).2 = 0) := by
  refine ⟨?_, ?_, ?_, analyzePOST_parCount, streamPOST_parCount,
    analyzePOST_parCount_zero, streamPOST_parCount_zero⟩
  · intro cfg env body
    rcases hsp : searchPOST cfg env body with ⟨r, tr⟩
    simp [searchRoute, hsp, parCount_mapSeq]
  · intro cfg env body
    rcases hsp : rerankPOST cfg env body with ⟨r, tr⟩
    simp [rerankRoute, hsp, parCount_mapSeq]
  · intro env body
    rcases hsp : parseQueryPOST env body with ⟨r, tr⟩
    simp [parseQueryRoute, hsp, parCount_mapSeq]

/-- Witness for C7: a concrete search request has no fan-out, and a concrete
analyze request without specific verses has none either. -/
theorem C7_at_most_one_fanout_witness :
    parCount (searchRoute cfgT envA (.ok bodyLove)).2 = 0 ∧
    parCount (analyzePOST cfgT envA (.ok bodyLove)).2 ≤ 1 ∧
    parCount (analyzePOST cfgT envA (.ok bodyLove)).2 = 0 :=
  ⟨C7_at_most_one_fanout.1 cfgT envA (.ok bodyLove),
   C7_at_most_one_fanout.2.2.2.1 cfgT envA (.ok bodyLove),
   C7_at_most_one_fanout.2.2.2.2.2.1 cfgT envA bodyLove (Or.inl rfl)⟩

/-! ### C10: `total` versus the returned array length (corrected) -/

/-- The search-route invariant: every successful response's `total` equals
the number of returned documents. -/
def searchTotalOk : SearchResp → Prop
  | .err _ _ => True
  | .ok _ documents total _ _ => total = documents.length

/-- The rerank-route invariant. -/
def rerankTotalOk : RerankResp → Prop
  | .err _ _ => True
  | .ok _ documents total _ _ _ => total = documents.length

/-- The amended analyze-route invariant: the final response carries
`total = verses.length`, while the non-biblical rejection response omits the
`total` field altogether (and its verse list is empty). -/
def analyzeTotalAmended : AnalyzeResp → Prop
  | .err _ _ _ => True
  | .ok _ verses _ analysisType total _ =>
    total = some verses.length ∨
      (total = none ∧ analysisType = some "not_biblical" ∧ verses = [])

theorem searchInner_totalOk (cfg : Config) (env : Env) (b : ReqBody) :
    Wsat searchTotalOk (searchInner cfg env b) := by
  unfold searchInner
  split
  · exact Wsat_pure trivial
  · dsimp only
    apply Wsat_bind; intro isRel
    split
    · exact Wsat_pure (by simp [searchTotalOk])
    · apply Wsat_bind; intro cleanedQuery
      dsimp only
      apply Wsat_bind; intro pref
      dsimp only
      split
      · apply Wsat_bind; intro requested
        dsimp only
        split
        · apply Wsat_bind; intro verses
          dsimp only
          split
          · apply Wsat_bind; intro y1
            exact Wsat_pure (by simp [searchTotalOk])
          · apply Wsat_bind; intro y1
            exact Wsat_pure (by simp [searchTotalOk])
        · apply Wsat_bind; intro emb
          dsimp only
          apply Wsat_bind; intro results
          dsimp only
          split
          · apply Wsat_bind; intro verses
            dsimp only
            split
            · apply Wsat_bind; intro y1
              exact Wsat_pure (by simp [searchTotalOk])
            · apply Wsat_bind; intro y1
              exact Wsat_pure (by simp [searchTotalOk])
          · exact Wsat_pure (by simp [searchTotalOk])
      · apply Wsat_bind; intro requested
        dsimp only
        split
        · apply Wsat_bind; intro verses
          dsimp only
          split
          · apply Wsat_bind; intro y1
            exact Wsat_pure (by simp [searchTotalOk])
          · apply Wsat_bind; intro y1
            exact Wsat_pure (by simp [searchTotalOk])
        · apply Wsat_bind; intro emb
          dsimp only
          apply Wsat_bind; intro results
          dsimp only
          split
          · apply Wsat_bind; intro verses
            dsimp only
            split
            · apply Wsat_bind; intro y1
              exact Wsat_pure (by simp [searchTotalOk])
            · apply Wsat_bind; intro y1
              exact Wsat_pure (by simp [searchTotalOk])
          · exact Wsat_pure (by simp [searchTotalOk])

theorem rerankInner_totalOk (cfg : Config) (env : Env) (b : ReqBody) :
    Wsat rerankTotalOk (rerankInner cfg env b) := by
  unfold rerankInner
  split
  · exact Wsat_pure trivial
  · dsimp only
    apply Wsat_bind; intro isRel
    split
    · exact Wsat_pure (by simp [rerankTotalOk])
    · apply Wsat_bind; intro cleanedQuery
      apply Wsat_bind; intro emb
      apply Wsat_bind; intro results
      apply Wsat_bind; intro rr
      apply Wsat_bind; intro verses
      dsimp only
      split
      · apply Wsat_bind; intro y1
        exact Wsat_pure (by simp [rerankTotalOk])
      · apply Wsat_bind; intro y1
        exact Wsat_pure (by simp [rerankTotalOk])

theorem analyzeInner_totalAmended (cfg : Config) (env : Env) (b : ReqBody) :
    WTsat analyzeTotalAmended (analyzeInner cfg env b) := by
  unfold analyzeInner
  split
  · exact WTsat_pure trivial
  · dsimp only
    apply WTsat_bind; intro isRel
    split
    · exact WTsat_pure (by simp [analyzeTotalAmended])
    · split
      · split
        · apply WTsat_bind; intro ar
          exact WTsat_pure (by simp [analyzeTotalAmended])
        · apply WTsat_bind; intro ar
          apply WTsat_bind; intro ar'
          exact WTsat_pure (by simp [analyzeTotalAmended])
      · apply WTsat_bind; intro ar
        apply WTsat_bind; intro ar'
        exact WTsat_pure (by simp [analyzeTotalAmended])

/-- An environment whose relevance check classifies the query as
non-biblical. -/
def envNotBiblical : Env := { envA with relevance := .ok (some "NO") }

/-- A request body with a non-biblical query. -/
def bodyWeather : ReqBody := { query := some "what is the weather" }

/-- Counterexample to C10 as stated: the analyze route's non-biblical
rejection is a successful (HTTP 200) JSON response whose verse array is
empty but which carries no `total` field at all, so its total does not equal
the array's length. -/
theorem C10_counterexample :
    analyzePOST cfgT envNotBiblical (.ok bodyWeather) =
      (.ok "what is the weather" [] nonBiblicalMsg (some "not_biblical") none none,
       [seqR (.llm .relevance)]) ∧
    (none : Option Nat) ≠ some (List.length ([] : List FmtVerse)) := by
  exact ⟨rfl, by decide⟩

/-- C10 (amended): in every response of the search and rerank handlers the
`total` field equals the number of returned documents, and in every response
of the analyze handler `total` equals the verse-array length except in the
non-biblical rejection response, which omits the `total` field (its verse
array is empty). -/
theorem C10_total_matches_length_amended :
    (∀ cfg env body r tr, searchPOST cfg env body = (r, tr) → searchTotalOk r) ∧
    (∀ cfg env body r tr, rerankPOST cfg env body = (r, tr) → rerankTotalOk r) ∧
    (∀ cfg env body r tr, analyzePOST cfg env body = (r, tr) → analyzeTotalAmended r) := by
  refine ⟨?_, ?_, ?_⟩
  · intro cfg env body r tr h
    cases body with
    | error e =>
      have h1 : SearchResp.err 500 "Internal server error" = r := congrArg Prod.fst h
      rw [← h1]
      trivial
    | ok b =>
      rcases hin : searchInner cfg env b with ⟨ir, itr⟩
      cases ir with
      | ok a =>
        have hP := searchInner_totalOk cfg env b a itr hin
        simp [searchPOST, hin] at h
        rwa [← h.1]
      | error e =>
        simp [searchPOST, hin] at h
        rw [← h.1]
        trivial
  · intro cfg env body r tr h
    cases body with
    | error e =>
      have h1 : RerankResp.err 500 "Internal server error" = r := congrArg Prod.fst h
      rw [← h1]
      trivial
    | ok b =>
      rcases hin : rerankInner cfg env b with ⟨ir, itr⟩
      cases ir with
      | ok a =>
        have hP := rerankInner_totalOk cfg env b a itr hin
        simp [rerankPOST, hin] at h
        rwa [← h.1]
      | error e =>
        simp [rerankPOST, hin] at h
        rw [← h.1]
        trivial
  · intro cfg env body r tr h
    cases body with
    | error e =>
      have h1 : AnalyzeResp.err 500 "Internal server error" (some (errMessage e)) = r :=
        congrArg Prod.fst h
      rw [← h1]
      trivial
    | ok b =>
      rcases hin : analyzeInner cfg env b with ⟨ir, itr⟩
      cases ir with
      | ok a =>
        have hP := analyzeInner_totalAmended cfg env b a itr hin
        simp [analyzePOST, hin] at h
        rwa [← h.1]
      | error e =>
        simp [analyzePOST, hin] at h
        rw [← h.1]
        trivial

/-- Witness for C10 (amended) at concrete rejection responses of the search
and analyze routes. -/
theorem C10_total_matches_length_amended_witness :
    searchTotalOk (.ok "what is the weather" [] 0 nonBiblicalMsg "") ∧
    analyzeTotalAmended
      (.ok "what is the weather" [] nonBiblicalMsg (some "not_biblical") none none) :=
  ⟨C10_total_matches_length_amended.1 cfgT envNotBiblical (.ok bodyWeather)
      (.ok "what is the weather" [] 0 nonBiblicalMsg "") [.llm .relevance] rfl,
   C10_total_matches_length_amended.2.2 cfgT envNotBiblical (.ok bodyWeather)
      (.ok "what is the weather" [] nonBiblicalMsg (some "not_biblical") none none)
      [seqR (.llm .relevance)] rfl⟩
